import Mathlib

/-!
Shallow embedding of the `facai` portfolio tracker.

Sources embedded here:
* `src/portfolio_mcp/models.py` — the typed data model (`Holding`,
  `PortfolioFile`, `PriceQuote`, `HoldingSnapshot`, `PortfolioSummary`,
  `PortfolioDefinition`).
* `src/app/portfolio.py` — `PortfolioStore`: loading, the portfolio map,
  snapshots, summaries and the mutating operations.
* `src/app/pricing.py` and `src/portfolio_mcp/pricing.py` — `PriceService`:
  symbol normalization, the TTL cache and the retrying fetch.
* `src/app/scheduler.py` — the module's indentation profile (the file does
  not parse: the `def` line of `refresh_now` is dedented to module level,
  so importing the module raises `IndentationError` and `PricePoller` never
  comes into existence).

Python `float` values are modelled as `ℚ`; Python dictionaries as
insertion-ordered association lists (`List (String × _)`); a raised
`ValueError` as an `Except String` error or an `Option String` error
component; wall-clock instants as `ℕ`.  The YAML (de)serialization layer is
treated as the identity on the typed `PortfolioFile` (it is excluded glue in
the repository's own description), so the persisted file is modelled as
`Option PortfolioFile` (`none` = the file does not exist).
-/

namespace Facai

/-! ### Python primitives -/

/-- Python `str.upper()` restricted to its ASCII behaviour (all symbols in
this code base are ASCII tickers). -/
def pyUpper (s : String) : String := String.mk (s.data.map Char.toUpper)

/-- Python `str.lower()` restricted to its ASCII behaviour. -/
def pyLower (s : String) : String := String.mk (s.data.map Char.toLower)

/-- Python `suffix in`-style test `s.endswith(suf)`. -/
def pyEndsWith (s suf : String) : Bool := List.isSuffixOf suf.toList s.toList

/-- Python `s.lstrip("0")`: drop the leading zero characters. -/
def pyLstripZeros (s : String) : String := String.mk (s.toList.dropWhile (fun c => c == '0'))

/-- Round a rational to the nearest integer, ties to even — the semantics of
Python 3 `round` on an exactly-represented value. -/
def rndHalfEven (q : ℚ) : ℤ :=
  let n : ℤ := ⌊q⌋
  let f : ℚ := q - (n : ℚ)
  if f < 1/2 then n
  else if 1/2 < f then n + 1
  else if n % 2 = 0 then n else n + 1

/-- Python `round(q, ndigits)` on an exactly-represented value. -/
def pyRound (q : ℚ) (ndigits : ℕ) : ℚ :=
  (rndHalfEven (q * (10 : ℚ) ^ ndigits) : ℚ) / (10 : ℚ) ^ ndigits

/-- Lookup in an insertion-ordered dictionary (first entry with the key). -/
def dictGet {β : Type} (m : List (String × β)) (k : String) : Option β :=
  (m.find? (fun e => e.1 = k)).map (fun e => e.2)

/-- Python `d[k] = v`: replace the value in place if the key is present
(dictionaries preserve insertion order), else append. -/
def dictSet {β : Type} (m : List (String × β)) (k : String) (v : β) : List (String × β) :=
  if m.any (fun e => e.1 = k) then
    m.map (fun e => if e.1 = k then (k, v) else e)
  else m ++ [(k, v)]

/-- Keys of a dictionary. -/
def dictKeys {β : Type} (m : List (String × β)) : List String := m.map (fun e => e.1)

/-- Insertion sort step for `sorted(set(...))` over strings, dropping
duplicates. -/
def insertSortedUniq (x : String) : List String → List String
  | [] => [x]
  | y :: ys =>
    if x = y then y :: ys
    else if x < y then x :: y :: ys
    else y :: insertSortedUniq x ys

/-- Python `sorted(set(l))` for a list of strings. -/
def sortedUniq (l : List String) : List String := l.foldr insertSortedUniq []

/-! ### Data model (`src/portfolio_mcp/models.py`) -/

/-- The `Holding` pydantic model: a tracked position.  `quantity ≥ 0` and
`cost_basis ≥ 0` are pydantic field constraints, carried as hypotheses where
a theorem needs them. -/
structure Holding where
  symbol : String
  quantity : ℚ
  cost_basis : ℚ
  currency : Option String := none
  id : Option String := none
  name : Option String := none
  broker : Option String := none
  category : Option String := none
  notes : Option String := none
deriving DecidableEq, Repr

/-- Embeds `Holding.book_value`. -/
def Holding.book_value (h : Holding) : ℚ := h.quantity * h.cost_basis

/-- Embeds `PortfolioDefinition`. -/
structure PortfolioDefinition where
  id : String
  name : Option String := none
  notes : Option String := none
  holdings : List Holding := []
deriving DecidableEq, Repr

/-- The `PortfolioFile` on-disk root. -/
structure PortfolioFile where
  base_currency : String := "USD"
  holdings : List Holding := []
  portfolios : List PortfolioDefinition := []
deriving DecidableEq, Repr

/-- Embeds `PriceQuote`.  `fetched_at` is an abstract instant (`ℕ`). -/
structure PriceQuote where
  symbol : String
  currency : Option String := none
  price : Option ℚ := none
  fetched_at : Option ℕ := none
  provider : String := "yfinance"
deriving DecidableEq, Repr

/-- Embeds `HoldingSnapshot`: a holding combined with its quote and derived
valuation figures. -/
structure HoldingSnapshot where
  holding : Holding
  quote : PriceQuote
  market_value : Option ℚ := none
  gain_abs : Option ℚ := none
  gain_pct : Option ℚ := none
  portfolio_id : Option String := none
  portfolio_name : Option String := none
deriving DecidableEq, Repr

/-- Embeds `PortfolioSummary`.  `refreshed_at` (a wall-clock value read inside
`summary`) is omitted: no claim mentions it and it depends on the ambient
clock, not on the store. -/
structure PortfolioSummary where
  base_currency : String
  portfolio_id : String
  portfolio_name : Option String := none
  total_book : ℚ
  total_market : ℚ
  total_gain : ℚ
  total_gain_pct : ℚ
  symbols : List String
  holding_count : ℕ
deriving DecidableEq, Repr

/-! ### `PortfolioStore` (`src/app/portfolio.py`) -/

def DEFAULT_PORTFOLIO_ID : String := "default"

def AGGREGATE_PORTFOLIO_ID : String := "all"

/-- The synthesized default portfolio wrapping a flat holdings list. -/
def defaultPortfolio (holdings : List Holding) : PortfolioDefinition :=
  { id := DEFAULT_PORTFOLIO_ID, name := some "Default Portfolio", holdings := holdings }

/-- The dictionary-building loop inside `_build_portfolio_map`: insert each
definition, rejecting an empty id or an id already present. -/
def buildEntries (acc : List (String × PortfolioDefinition)) :
    List PortfolioDefinition → Except String (List (String × PortfolioDefinition))
  | [] => .ok acc
  | d :: ds =>
    if d.id = "" then .error "Each portfolio entry must have an id"
    else if acc.any (fun e => e.1 = d.id) then
      .error ("Duplicate portfolio id detected: " ++ d.id)
    else buildEntries (acc ++ [(d.id, d)]) ds

/-- Embeds `PortfolioStore._build_portfolio_map`. -/
def buildPortfolioMap (data : PortfolioFile) :
    Except String (List (String × PortfolioDefinition)) :=
  if data.portfolios ≠ [] then buildEntries [] data.portfolios
  else if data.holdings ≠ [] then
    .ok [(DEFAULT_PORTFOLIO_ID, defaultPortfolio data.holdings)]
  else
    .ok [(DEFAULT_PORTFOLIO_ID, defaultPortfolio [])]

/-- The in-memory `PortfolioStore` state: `data` is `self._data`,
`portfoliosCache` is `self._portfolios`, `file` is the persisted file
content (`none` when the file does not exist). -/
structure PortfolioStore where
  data : PortfolioFile
  portfoliosCache : List (String × PortfolioDefinition)
  file : Option PortfolioFile
deriving DecidableEq, Repr

/-- Embeds `PortfolioStore.reload`.  Returns the new state together with the raised
error, if any.  Note the missing-file branch returns early: it resets
`_data` but leaves `_portfolios` untouched. -/
def PortfolioStore.reload (s : PortfolioStore) : PortfolioStore × Option String :=
  match s.file with
  | none => ({ s with data := { base_currency := "USD", holdings := [] } }, none)
  | some raw =>
    match buildPortfolioMap raw with
    | .error e => ({ s with data := raw }, some e)
    | .ok cache => ({ s with data := raw, portfoliosCache := cache }, none)

/-- Embeds `PortfolioStore.__init__`: start from an empty `PortfolioFile` and an
empty map, then `reload`. -/
def mkStore (file : Option PortfolioFile) : PortfolioStore × Option String :=
  PortfolioStore.reload
    { data := { base_currency := "USD", holdings := [] }, portfoliosCache := [], file := file }

/-- Embeds `PortfolioStore.save`: serialize `self._data` to the file. -/
def PortfolioStore.save (s : PortfolioStore) : PortfolioStore :=
  { s with file := some s.data }

/-- Embeds `PortfolioStore._iter_holdings`, materialized as a list of
(owning definition, holding) pairs. -/
def iterHoldings (s : PortfolioStore) (portfolio_id : Option String) :
    Except String (List (PortfolioDefinition × Holding)) :=
  match portfolio_id with
  | none =>
    .ok ((s.portfoliosCache.map
      (fun e => e.2.holdings.map (fun h => (e.2, h)))).flatten)
  | some pid =>
    match dictGet s.portfoliosCache pid with
    | none => .error ("Unknown portfolio id: " ++ pid)
    | some definition => .ok (definition.holdings.map (fun h => (definition, h)))

/-- The snapshot built for one holding inside `PortfolioStore.snapshots`:
pair the holding with `quotes.get(symbol.upper())` (falling back to an empty
quote) and derive the valuation figures. -/
def mkSnapshot (quotes : List (String × PriceQuote)) (definition : PortfolioDefinition)
    (h : Holding) : HoldingSnapshot :=
  let quote := (dictGet quotes (pyUpper h.symbol)).getD { symbol := h.symbol }
  let market_value := quote.price.map (fun p => h.quantity * p)
  let gain_abs := market_value.map (fun mv => mv - h.book_value)
  let gain_pct :=
    match market_value with
    | some mv => if h.book_value > 0 then some (mv / h.book_value - 1) else none
    | none => none
  { holding := h, quote := quote, market_value := market_value,
    gain_abs := gain_abs, gain_pct := gain_pct,
    portfolio_id := some definition.id, portfolio_name := definition.name }

/-- Embeds `PortfolioStore.snapshots`. -/
def PortfolioStore.snapshots (s : PortfolioStore) (quotes : List (String × PriceQuote))
    (portfolio_id : Option String) : Except String (List HoldingSnapshot) :=
  (iterHoldings s portfolio_id).map
    (fun l => l.map (fun dh => mkSnapshot quotes dh.1 dh.2))

/-- The id/name pair `summary` reports, mirroring the two `if portfolio_id`
tests (an empty-string id is falsy in Python and falls through to the
aggregate branch). -/
def summaryNames (s : PortfolioStore) (portfolio_id : Option String) :
    Except String (String × Option String) :=
  match portfolio_id with
  | some p =>
    if p ≠ "" then
      match dictGet s.portfoliosCache p with
      | none => .error ("Unknown portfolio id: " ++ p)
      | some definition => .ok (definition.id, definition.name)
    else .ok (AGGREGATE_PORTFOLIO_ID, some "All Portfolios")
  | none => .ok (AGGREGATE_PORTFOLIO_ID, some "All Portfolios")

/-- The `PortfolioSummary` record `summary` assembles once its two fallible
steps (snapshot selection and the portfolio-name lookup) have succeeded. -/
def summaryRecord (s : PortfolioStore) (snaps : List HoldingSnapshot)
    (names : String × Option String) : PortfolioSummary :=
  let total_book := (snaps.map (fun h => h.holding.book_value)).sum
  let total_market := (snaps.map (fun h => h.market_value.getD 0)).sum
  let total_gain := total_market - total_book
  let total_gain_pct := if total_book ≠ 0 then total_market / total_book - 1 else 0
  { base_currency := s.data.base_currency,
    portfolio_id := names.1,
    portfolio_name := names.2,
    total_book := pyRound total_book 2,
    total_market := pyRound total_market 2,
    total_gain := pyRound total_gain 2,
    total_gain_pct := pyRound total_gain_pct 4,
    symbols := sortedUniq (snaps.map (fun snap => snap.holding.symbol)),
    holding_count := snaps.length }

/-- Embeds `PortfolioStore.summary`. -/
def PortfolioStore.summary (s : PortfolioStore) (quotes : List (String × PriceQuote))
    (portfolio_id : Option String) : Except String PortfolioSummary :=
  match s.snapshots quotes portfolio_id with
  | .error e => .error e
  | .ok snaps =>
    match summaryNames s portfolio_id with
    | .error e => .error e
    | .ok names => .ok (summaryRecord s snaps names)

/-! ### `PortfolioStore` mutating operations (`src/app/portfolio.py`) -/

/-- Embeds `PortfolioStore._refresh_cache`: rebuild `_portfolios` from `_data`;
on a build error the cache assignment does not happen and the error is
reported. -/
def refreshCache (s : PortfolioStore) : PortfolioStore × Option String :=
  match buildPortfolioMap s.data with
  | .ok cache => ({ s with portfoliosCache := cache }, none)
  | .error e => (s, some e)

/-- Embeds `PortfolioStore._ensure_portfolios_initialized`: materialize the flat
holdings into an explicit default portfolio and refresh the cache.  (The
refresh cannot fail here: the rebuilt data holds the single non-empty id
`"default"`.) -/
def ensurePortfoliosInitialized (s : PortfolioStore) : PortfolioStore :=
  if s.data.portfolios ≠ [] then s
  else
    let data' : PortfolioFile :=
      { s.data with portfolios := [defaultPortfolio s.data.holdings], holdings := [] }
    (refreshCache { s with data := data' }).1

/-- Turn an `Except` result into the raised-error component of an
operation. -/
def errOf {α : Type} : Except String α → Option String
  | .ok _ => none
  | .error e => some e

/-- Embeds `PortfolioStore._generate_holding_id`: lower-case the symbol, replace
dots by dashes, then disambiguate with the smallest numeric suffix not yet
used.  The Python `while` loop always terminates within
`existing.length + 1` suffix candidates (they are pairwise distinct), which
the bounded search below covers; the `getD` fallback is unreachable. -/
def generateHoldingId (portfolio : PortfolioDefinition) (symbol : String) : String :=
  let base := String.mk ((pyLower symbol).data.map (fun c => if c == '.' then '-' else c))
  let existing := (portfolio.holdings.filterMap (fun h => h.id)).filter (fun i => i ≠ "")
  if base ≠ "" ∧ ¬ base ∈ existing then base
  else
    ((((List.range (existing.length + 1)).map
        (fun k => base ++ "-" ++ toString (k + 1))).find?
      (fun c => decide (¬ c ∈ existing)))).getD
      (base ++ "-" ++ toString (existing.length + 1))

/-- The key match of `_find_holding_index`:
`(holding.id and holding.id == key) or holding.symbol.upper() == key.upper()`. -/
def matchesKey (key : String) (h : Holding) : Bool :=
  (match h.id with
   | some i => decide (i ≠ "") && decide (i = key)
   | none => false)
  || decide (pyUpper h.symbol = pyUpper key)

/-- The `(index, holding)` pairs matching a removal key. -/
def findHoldingMatches (portfolio : PortfolioDefinition) (key : String) : List (ℕ × Holding) :=
  portfolio.holdings.enum.filter (fun e => matchesKey key e.2)

/-- Embeds `PortfolioStore._find_holding_index`: exactly one match or an error. -/
def findHoldingIndex (portfolio : PortfolioDefinition) (key : String) :
    Except String (ℕ × Holding) :=
  match findHoldingMatches portfolio key with
  | [] => .error ("Holding '" ++ key ++ "' not found in portfolio " ++ portfolio.id)
  | [m] => .ok m
  | _ =>
    .error ("Multiple holdings match '" ++ key ++ "' in portfolio " ++ portfolio.id
      ++ "; use holding id instead")

/-- Replace the portfolio carrying `pid` inside the data (the in-place
object mutation of the Python code, expressed functionally: the cache entry
for `pid` aliases the `data.portfolios` entry with that id). -/
def replacePortfolio (data : PortfolioFile) (pid : String)
    (definition : PortfolioDefinition) : PortfolioFile :=
  { data with portfolios := data.portfolios.map (fun p => if p.id = pid then definition else p) }

/-- Pick the provided value, else keep the old one: the partial-update pattern
`if v is not None: obj.field = v`. -/
def optOverride {α : Type} (new : Option α) (old : Option α) : Option α :=
  match new with
  | some v => some v
  | none => old

/-- The partial-update argument of `update_holding` (a `None` field means
"leave unchanged"). -/
structure HoldingUpdate where
  quantity : Option ℚ := none
  cost_basis : Option ℚ := none
  notes : Option String := none
  broker : Option String := none
  category : Option String := none
  name : Option String := none
  currency : Option String := none
  symbol : Option String := none
deriving DecidableEq, Repr

/-- Apply the provided fields of an update to a holding. -/
def applyHoldingUpdate (h : Holding) (u : HoldingUpdate) : Holding :=
  { h with
    quantity := u.quantity.getD h.quantity,
    cost_basis := u.cost_basis.getD h.cost_basis,
    notes := optOverride u.notes h.notes,
    broker := optOverride u.broker h.broker,
    category := optOverride u.category h.category,
    name := optOverride u.name h.name,
    currency := optOverride u.currency h.currency,
    symbol := u.symbol.getD h.symbol }

/-- Embeds `PortfolioStore.create_portfolio`. -/
def createPortfolio (s : PortfolioStore) (portfolio_id : String)
    (name notes : Option String) : PortfolioStore × Except String PortfolioDefinition :=
  let s1 := ensurePortfoliosInitialized s
  if portfolio_id = "" then (s1, .error "portfolio_id is required")
  else if (dictGet s1.portfoliosCache portfolio_id).isSome then
    (s1, .error ("Portfolio " ++ portfolio_id ++ " already exists"))
  else
    let definition : PortfolioDefinition :=
      { id := portfolio_id, name := name, notes := notes, holdings := [] }
    let s2 := { s1 with data :=
      { s1.data with portfolios := s1.data.portfolios ++ [definition] } }
    let r := refreshCache s2.save
    (r.1, match r.2 with | some e => .error e | none => .ok definition)

/-- Embeds `PortfolioStore.update_portfolio`. -/
def updatePortfolio (s : PortfolioStore) (portfolio_id : String)
    (name notes : Option String) : PortfolioStore × Except String PortfolioDefinition :=
  let s1 := ensurePortfoliosInitialized s
  match dictGet s1.portfoliosCache portfolio_id with
  | none => (s1, .error ("Portfolio " ++ portfolio_id ++ " does not exist"))
  | some definition =>
    let definition' := { definition with
      name := optOverride name definition.name,
      notes := optOverride notes definition.notes }
    let s2 := { s1 with data := replacePortfolio s1.data portfolio_id definition' }
    let r := refreshCache s2.save
    (r.1, match r.2 with | some e => .error e | none => .ok definition')

/-- Embeds `PortfolioStore.delete_portfolio`. -/
def deletePortfolio (s : PortfolioStore) (portfolio_id : String) (force : Bool) :
    PortfolioStore × Except String PortfolioDefinition :=
  let s1 := ensurePortfoliosInitialized s
  match dictGet s1.portfoliosCache portfolio_id with
  | none => (s1, .error ("Portfolio " ++ portfolio_id ++ " does not exist"))
  | some definition =>
    if s1.portfoliosCache.length ≤ 1 then
      (s1, .error "Cannot delete the last portfolio")
    else if definition.holdings ≠ [] ∧ force = false then
      (s1, .error "Portfolio is not empty; set force=true to delete anyway")
    else
      let s2 := { s1 with data := { s1.data with
        portfolios := s1.data.portfolios.filter (fun p => p.id ≠ portfolio_id) } }
      let r := refreshCache s2.save
      (r.1, match r.2 with | some e => .error e | none => .ok definition)

/-- Embeds `PortfolioStore.add_holding`. -/
def addHolding (s : PortfolioStore) (portfolio_id : String) (holding : Holding) :
    PortfolioStore × Except String Holding :=
  let s1 := ensurePortfoliosInitialized s
  match dictGet s1.portfoliosCache portfolio_id with
  | none => (s1, .error ("Portfolio " ++ portfolio_id ++ " does not exist"))
  | some portfolio =>
    if holding.id = none ∨ holding.id = some "" then
      let holding' := { holding with id := some (generateHoldingId portfolio holding.symbol) }
      let portfolio' := { portfolio with holdings := portfolio.holdings ++ [holding'] }
      let s2 := { s1 with data := replacePortfolio s1.data portfolio_id portfolio' }
      let r := refreshCache s2.save
      (r.1, match r.2 with | some e => .error e | none => .ok holding')
    else if portfolio.holdings.any (fun ex => decide (ex.id = holding.id)) then
      (s1, .error ("Holding id " ++ (holding.id.getD "") ++ " already exists in portfolio "
        ++ portfolio_id))
    else
      let portfolio' := { portfolio with holdings := portfolio.holdings ++ [holding] }
      let s2 := { s1 with data := replacePortfolio s1.data portfolio_id portfolio' }
      let r := refreshCache s2.save
      (r.1, match r.2 with | some e => .error e | none => .ok holding)

/-- Embeds `PortfolioStore.remove_holding`. -/
def removeHolding (s : PortfolioStore) (portfolio_id : String) (holding_key : String) :
    PortfolioStore × Except String Holding :=
  let s1 := ensurePortfoliosInitialized s
  match dictGet s1.portfoliosCache portfolio_id with
  | none => (s1, .error ("Portfolio " ++ portfolio_id ++ " does not exist"))
  | some portfolio =>
    match findHoldingIndex portfolio holding_key with
    | .error e => (s1, .error e)
    | .ok m =>
      let portfolio' := { portfolio with holdings := portfolio.holdings.eraseIdx m.1 }
      let s2 := { s1 with data := replacePortfolio s1.data portfolio_id portfolio' }
      let r := refreshCache s2.save
      (r.1, match r.2 with | some e => .error e | none => .ok m.2)

/-- Embeds `PortfolioStore.update_holding`. -/
def updateHolding (s : PortfolioStore) (portfolio_id holding_id : String)
    (u : HoldingUpdate) : PortfolioStore × Except String Holding :=
  let s1 := ensurePortfoliosInitialized s
  match dictGet s1.portfoliosCache portfolio_id with
  | none => (s1, .error ("Portfolio " ++ portfolio_id ++ " does not exist"))
  | some portfolio =>
    match portfolio.holdings.enum.find? (fun e => decide (e.2.id = some holding_id)) with
    | none =>
      (s1, .error ("Holding id " ++ holding_id ++ " not found in portfolio " ++ portfolio_id))
    | some m =>
      let holding' := applyHoldingUpdate m.2 u
      let portfolio' := { portfolio with holdings := portfolio.holdings.set m.1 holding' }
      let s2 := { s1 with data := replacePortfolio s1.data portfolio_id portfolio' }
      let r := refreshCache s2.save
      (r.1, match r.2 with | some e => .error e | none => .ok holding')

/-- The mutating operations of the store, as one sum type. -/
inductive StoreOp where
  | createPortfolio (portfolio_id : String) (name notes : Option String)
  | updatePortfolio (portfolio_id : String) (name notes : Option String)
  | deletePortfolio (portfolio_id : String) (force : Bool)
  | addHolding (portfolio_id : String) (holding : Holding)
  | removeHolding (portfolio_id : String) (key : String)
  | updateHolding (portfolio_id : String) (holding_id : String) (upd : HoldingUpdate)
deriving DecidableEq, Repr

/-- Run one mutating operation, keeping the resulting state and the raised
error (if any). -/
def applyOp (s : PortfolioStore) (op : StoreOp) : PortfolioStore × Option String :=
  match op with
  | .createPortfolio pid name notes =>
    let r := createPortfolio s pid name notes; (r.1, errOf r.2)
  | .updatePortfolio pid name notes =>
    let r := updatePortfolio s pid name notes; (r.1, errOf r.2)
  | .deletePortfolio pid force =>
    let r := deletePortfolio s pid force; (r.1, errOf r.2)
  | .addHolding pid holding =>
    let r := addHolding s pid holding; (r.1, errOf r.2)
  | .removeHolding pid key =>
    let r := removeHolding s pid key; (r.1, errOf r.2)
  | .updateHolding pid hid upd =>
    let r := updateHolding s pid hid upd; (r.1, errOf r.2)

/-- A store whose in-memory cache is consistent with its data (or still in
the legacy flat layout, where the first mutation rebuilds the cache).  Every
state reachable through construction, reload and successful mutation
satisfies this. -/
def WellFormed (s : PortfolioStore) : Prop :=
  s.data.portfolios = [] ∨ buildPortfolioMap s.data = .ok s.portfoliosCache

/-! ### `PriceService` (`src/app/pricing.py`, `src/portfolio_mcp/pricing.py`) -/

/-- Symbol normalization of `src/portfolio_mcp/pricing.py`: upper-case
only. -/
def normMcp (symbol : String) : String := pyUpper symbol

/-- Symbol normalization of `src/app/pricing.py`: upper-case, then strip
leading zeros from a `.HK` code — but only when the upper-cased symbol is
longer than 5 characters. -/
def normApp (symbol : String) : String :=
  let normalized := pyUpper symbol
  if pyEndsWith normalized ".HK" then
    (if normalized.length > 5 then pyLstripZeros normalized else normalized)
  else normalized

/-- The externally visible behaviour of one fetch attempt (`yf.Ticker`
construction plus price/currency extraction): it either raises or returns an
optional price and currency. -/
inductive FetchOutcome where
  | raises (msg : String)
  | returns (price : Option ℚ) (currency : Option String)
deriving DecidableEq, Repr

/-- Provider oracle: the outcome of attempt `i` for a normalized symbol. -/
def FetchOracle : Type := String → ℕ → FetchOutcome

/-- An attempt fails when it raises or yields no price. -/
def attemptFails : FetchOutcome → Bool
  | .raises _ => true
  | .returns p _ => p.isNone

/-- The retry loop of `_fetch_quote_sync` over the state
`(price, currency, last_error)`: a raising attempt is caught and only sets
`last_error`; a returning attempt overwrites price and currency and breaks
when the price is present; `i` is the attempt index and `n` the remaining
attempts. -/
def runAttempts (oracle : ℕ → FetchOutcome) :
    ℕ → ℕ → (Option ℚ × Option String × Option String) →
    Option ℚ × Option String × Option String
  | _, 0, st => st
  | i, Nat.succ n, st =>
    match oracle i with
    | .raises e => runAttempts oracle (i + 1) n (st.1, st.2.1, some e)
    | .returns p c =>
      if p.isSome then (p, c, st.2.2)
      else runAttempts oracle (i + 1) n (p, c, st.2.2)

/-- Embeds `PriceService._fetch_quote_sync`: `attempts = max_retries + 1`; every
attempt's exception is caught inside the loop, so the function always
returns a quote — with `price` absent when no attempt produced one — and
never propagates an exception (visible here in the return type). -/
def fetchQuoteSync (maxRetries : ℕ) (oracle : ℕ → FetchOutcome) (now : ℕ)
    (symbol : String) : PriceQuote :=
  let r := runAttempts oracle 0 (maxRetries + 1) (none, none, none)
  { symbol := symbol, price := r.1, currency := r.2.1,
    fetched_at := some now, provider := "yfinance_sdk" }

/-- The `CacheEntry` of the price service. -/
structure CacheEntry where
  quote : PriceQuote
  expires_at : ℕ
deriving DecidableEq, Repr

/-- The `PriceService` state: retry/TTL configuration plus the TTL cache. -/
structure PriceServiceState where
  maxRetries : ℕ
  ttl : ℕ
  cache : List (String × CacheEntry)
deriving DecidableEq, Repr

/-- Embeds `PriceService._get_symbol`, parametrized by the normalization function:
serve a live cached quote, else fetch and store the result with expiry
`now + ttl` (which equals `now` when the TTL is zero, exactly as in the
code).  The boolean reports whether a provider fetch happened. -/
def getSymbol (norm : String → String) (st : PriceServiceState) (oracle : FetchOracle)
    (now : ℕ) (symbol : String) : PriceQuote × PriceServiceState × Bool :=
  let normalized := norm symbol
  match dictGet st.cache normalized with
  | some cached =>
    if cached.expires_at > now then (cached.quote, st, false)
    else
      let quote := fetchQuoteSync st.maxRetries (oracle normalized) now normalized
      (quote, { st with cache := dictSet st.cache normalized ⟨quote, now + st.ttl⟩ }, true)
  | none =>
    let quote := fetchQuoteSync st.maxRetries (oracle normalized) now normalized
    (quote, { st with cache := dictSet st.cache normalized ⟨quote, now + st.ttl⟩ }, true)

/-- The per-symbol loop of `get_quotes`.  The code runs the per-symbol
coroutines concurrently; they are composed sequentially here, which yields
the same quotes whenever a symbol is served from cache or fetched once.
Returns the quotes in symbol order, the final cache state, and the list of
normalized symbols actually fetched from the provider. -/
def runSymbols (norm : String → String) (st : PriceServiceState) (oracle : FetchOracle)
    (now : ℕ) : List String → List PriceQuote × PriceServiceState × List String
  | [] => ([], st, [])
  | s :: rest =>
    let r := getSymbol norm st oracle now s
    let rr := runSymbols norm r.2.1 oracle now rest
    (r.1 :: rr.1, rr.2.1, (if r.2.2 then [norm s] else []) ++ rr.2.2)

/-- The result dictionary of `get_quotes`:
`{quote.symbol.upper(): quote for quote in quotes}`. -/
def quotesDict (qs : List PriceQuote) : List (String × PriceQuote) :=
  qs.foldl (fun m q => dictSet m (pyUpper q.symbol) q) []

/-- Embeds `PriceService.get_quotes`. -/
def getQuotes (norm : String → String) (st : PriceServiceState) (oracle : FetchOracle)
    (now : ℕ) (symbols : List String) :
    List (String × PriceQuote) × PriceServiceState × List String :=
  let r := runSymbols norm st oracle now symbols
  (quotesDict r.1, r.2.1, r.2.2)

/-! ### `src/app/scheduler.py` does not parse

The `def` line of `refresh_now` (line 38) sits at module level (column 0)
while its body remains at method-body depth, so Python's tokenizer rejects
the module with `IndentationError` the moment it is imported: `PricePoller`
and its methods (`ensure_warm` among them) never come into existence as
runnable code.  The scheduler is therefore embedded at the level the defect
lives at: the file's indentation profile and the tokenizer's indentation
rule that it violates. -/

/-- Embeds the dedent side of the tokenizer's indentation rule (Python
Language Reference section 2.1.8): indentation levels are popped until one
equals the new line's indent; if none does, the tokenizer raises
`IndentationError: unindent does not match any outer indentation level`. -/
def popToIndent (n : ℕ) : List ℕ → Except String (List ℕ)
  | [] => Except.error "unindent does not match any outer indentation level"
  | top :: s =>
    if top = n then Except.ok (top :: s)
    else if n < top then popToIndent n s
    else Except.error "unindent does not match any outer indentation level"

/-- Embeds the tokenizer's INDENT/DEDENT bookkeeping over a module's
indentation profile: the stack starts as `[0]`; a larger indent is pushed,
an equal indent passes, a smaller indent pops through `popToIndent`.  A
module whose profile errors here raises `IndentationError` when it is first
imported, before any statement of it runs. -/
def checkIndents (stack : List ℕ) : List ℕ → Except String Unit
  | [] => Except.ok ()
  | n :: rest =>
    match stack with
    | [] => Except.error "unindent does not match any outer indentation level"
    | top :: s =>
      if top < n then checkIndents (n :: top :: s) rest
      else if top = n then checkIndents (top :: s) rest
      else
        match popToIndent n (top :: s) with
        | Except.ok stack2 => checkIndents stack2 rest
        | Except.error e => Except.error e

/-- The indentation profile of `src/app/scheduler.py`: the leading-space
count of every non-blank, non-comment-only physical line (each is its own
logical line; the file has no continuation lines), in file order.  The lone
`0` in the middle is line 38, the `async def refresh_now(self)` line that
sits at module level while its body stays at method-body depth. -/
def schedulerIndents : List ℕ :=
  [0, 0, 0, 0, 0, 0, 0,               -- lines 1-10: docstring and imports
   0,                                 -- line 13: class PricePoller
   4, 8, 8, 8, 8, 8, 8,               -- lines 14-20: __init__
   4, 8, 12, 8,                       -- lines 22-25: start
   4, 8, 12, 8, 8, 12, 8, 12, 8, 12,  -- lines 27-36: stop
   0,                                 -- line 38: async def refresh_now
   8, 8, 8,                           -- lines 39-41: its body
   4, 8, 12,                          -- lines 43-45: cached_quotes
   4, 8, 8, 12, 8,                    -- lines 47-51: ensure_warm
   4, 8, 12, 16, 12, 16, 16, 12]      -- lines 53-61: the refresh loop

/-- The same profile with line 38 restored to the method depth (4) that its
body and its position between the class's methods dictate: the minimal
repair of the corruption. -/
def schedulerIndentsIntended : List ℕ :=
  [0, 0, 0, 0, 0, 0, 0,
   0,
   4, 8, 8, 8, 8, 8, 8,
   4, 8, 12, 8,
   4, 8, 12, 8, 8, 12, 8, 12, 8, 12,
   4,
   8, 8, 8,
   4, 8, 12,
   4, 8, 8, 12, 8,
   4, 8, 12, 16, 12, 16, 16, 12]

/-! ### Auxiliary definitions and concrete inputs -/

instance {ε α : Type} [DecidableEq ε] [DecidableEq α] : DecidableEq (Except ε α) := fun x y =>
  match x, y with
  | .error e, .error f =>
    if h : e = f then .isTrue (by rw [h])
    else .isFalse (fun hc => h (Except.error.inj hc))
  | .error _, .ok _ => .isFalse (fun hc => Except.noConfusion hc)
  | .ok _, .error _ => .isFalse (fun hc => Except.noConfusion hc)
  | .ok a, .ok b =>
    if h : a = b then .isTrue (by rw [h])
    else .isFalse (fun hc => h (Except.ok.inj hc))

/-- Book value of a list of holdings (the pre-rounding total `summary`
sums). -/
def bookSum (holdings : List Holding) : ℚ := (holdings.map Holding.book_value).sum

/-- A rational that is an exact multiple of `0.01` (two decimal places). -/
def centValued (q : ℚ) : Prop := ∃ z : ℤ, q * 100 = (z : ℚ)

/-- The holding of the spec's `summary` scenario. -/
def c2Holding : Holding := { symbol := "X", quantity := 10, cost_basis := 5 }

/-- The portfolio of the spec's `summary` scenario. -/
def c2Def : PortfolioDefinition := { id := "p1", holdings := [c2Holding] }

/-- The portfolio file of the spec's `summary` scenario. -/
def c2File : PortfolioFile := { base_currency := "USD", portfolios := [c2Def] }

/-- The store of the spec's `summary` scenario. -/
def c2Store : PortfolioStore := (mkStore (some c2File)).1

/-- The quote mapping of the spec's `summary` scenario: `"X" ↦ price 7`. -/
def c2Quotes : List (String × PriceQuote) := [("X", { symbol := "X", price := some 7 })]

/-- The snapshot `snapshots` produces in the spec's `summary` scenario. -/
def c2Snap : HoldingSnapshot := mkSnapshot c2Quotes c2Def c2Holding

/-- A holding of one unit at cost basis `0.004`: its book value rounds to
`0.00` alone, while two of them round to `0.01` together. -/
def tinyHolding (symbol : String) : Holding :=
  { symbol := symbol, quantity := 1, cost_basis := 1/250 }

/-- Two-portfolio file whose per-portfolio book values each round to zero
while the aggregate book value rounds to `0.01`. -/
def c3File : PortfolioFile :=
  { base_currency := "USD",
    portfolios := [{ id := "a", holdings := [tinyHolding "A"] },
                   { id := "b", holdings := [tinyHolding "B"] }] }

/-- The store built over `c3File`. -/
def c3Store : PortfolioStore := (mkStore (some c3File)).1

/-- Two-portfolio file with no holdings at all (every book value is an exact
cent multiple, namely zero). -/
def twoEmptyFile : PortfolioFile :=
  { base_currency := "USD",
    portfolios := [{ id := "a" }, { id := "b" }] }

/-- The store built over `twoEmptyFile`. -/
def twoEmptyStore : PortfolioStore := (mkStore (some twoEmptyFile)).1

/-- Store holding one empty portfolio `"e"`, used as a zero-book scope. -/
def emptyPortfolioStore : PortfolioStore :=
  (mkStore (some { base_currency := "USD", portfolios := [{ id := "e" }] })).1

/-- A holding living in a legacy flat-layout file. -/
def legacyHolding : Holding := { symbol := "LEG", quantity := 1, cost_basis := 2 }

/-- Store loaded from a legacy flat-layout file (a `holdings` list but no
explicit `portfolios`). -/
def legacyStore : PortfolioStore :=
  (mkStore (some { base_currency := "USD", holdings := [legacyHolding] })).1

/-- First holding of the shared-symbol removal scenario (id distinct from
the shared symbol). -/
def c7H1 : Holding := { symbol := "AAPL", quantity := 1, cost_basis := 1, id := some "aapl" }

/-- Second holding of the shared-symbol removal scenario, with an id that
does not collide with the symbol. -/
def c7H2 : Holding := { symbol := "AAPL", quantity := 2, cost_basis := 1, id := some "x2" }

/-- Portfolio with two holdings sharing the symbol `"AAPL"`. -/
def c7Def : PortfolioDefinition := { id := "p", holdings := [c7H1, c7H2] }

/-- Store for the shared-symbol removal scenario. -/
def c7Store : PortfolioStore :=
  (mkStore (some { base_currency := "USD", portfolios := [c7Def] })).1

/-- Holding whose id `"aapl"` case-insensitively equals the shared symbol
`"AAPL"` (the id `add_holding` would itself auto-derive). -/
def c7xH1 : Holding := { symbol := "AAPL", quantity := 1, cost_basis := 1, id := some "aapl" }

/-- Second holding with the disambiguated id `"aapl-1"`. -/
def c7xH2 : Holding :=
  { symbol := "AAPL", quantity := 1, cost_basis := 1, id := some "aapl-1" }

/-- Portfolio of the ambiguity counterexample. -/
def c7xDef : PortfolioDefinition := { id := "p", holdings := [c7xH1, c7xH2] }

/-- Store where removing by `c7xH1`'s unique id `"aapl"` is ambiguous. -/
def c7xStore : PortfolioStore :=
  (mkStore (some { base_currency := "USD", portfolios := [c7xDef] })).1

/-- Always-succeeding oracle used by the normalization witness. -/
def w8Oracle : FetchOracle := fun _ _ => .returns (some 5) (some "HKD")

/-- All-failing oracle used by the retry-exhaustion witness. -/
def w6Oracle : FetchOracle := fun _ i =>
  if i = 0 then .raises "network down" else .returns none none

/-- The `total_book` figure of `summary(id)` for each listed portfolio
entry, collected left to right (the per-portfolio side of the additivity
claim). -/
def summaryTotalBooks (s : PortfolioStore) (quotes : List (String × PriceQuote)) :
    List (String × PortfolioDefinition) → Except String (List ℚ)
  | [] => .ok []
  | kv :: rest =>
    match (s.summary quotes (some kv.1)).map (fun out => out.total_book) with
    | .error e => .error e
    | .ok b =>
      match summaryTotalBooks s quotes rest with
      | .error e => .error e
      | .ok bs => .ok (b :: bs)

/-! ### Basic lemmas about the read path -/

/-- Rounding an integer-valued rational returns it unchanged. -/
theorem rndHalfEven_intCast (z : ℤ) : rndHalfEven (z : ℚ) = z := by
  unfold rndHalfEven
  norm_num

/-- Rounding is the identity on a rational that is exact at `d` decimal
places. -/
theorem pyRound_eq_self (q : ℚ) (d : ℕ) (z : ℤ) (h : q * (10 : ℚ) ^ d = (z : ℚ)) :
    pyRound q d = q := by
  unfold pyRound
  rw [h, rndHalfEven_intCast, ← h]
  have hpow : ((10 : ℚ) ^ d) ≠ 0 := by positivity
  rw [mul_div_assoc, div_self hpow, mul_one]

theorem pyRound_zero (d : ℕ) : pyRound 0 d = 0 := by
  have := pyRound_eq_self 0 d 0 (by norm_num)
  simpa using this

theorem except_map_eq_ok {α β ε : Type} {f : α → β} {x : Except ε α} {b : β}
    (h : x.map f = .ok b) : ∃ a, x = .ok a ∧ f a = b := by
  cases x with
  | error e => simp [Except.map] at h
  | ok a => refine ⟨a, rfl, ?_⟩; simpa [Except.map] using h

/-- The valuation fields of the snapshot built for one holding, as functions
of the price of the paired quote. -/
theorem mkSnapshot_spec (quotes : List (String × PriceQuote))
    (d : PortfolioDefinition) (h : Holding) :
    ((mkSnapshot quotes d h).holding = h) ∧
    (∀ p, (mkSnapshot quotes d h).quote.price = some p →
      (mkSnapshot quotes d h).market_value = some (h.quantity * p) ∧
      (mkSnapshot quotes d h).gain_abs = some (h.quantity * p - h.book_value) ∧
      (h.book_value > 0 →
        (mkSnapshot quotes d h).gain_pct = some (h.quantity * p / h.book_value - 1)) ∧
      (h.book_value = 0 → (mkSnapshot quotes d h).gain_pct = none)) ∧
    ((mkSnapshot quotes d h).quote.price = none →
      (mkSnapshot quotes d h).market_value = none ∧
      (mkSnapshot quotes d h).gain_abs = none ∧
      (mkSnapshot quotes d h).gain_pct = none) := by
  have hq : (mkSnapshot quotes d h).quote
      = (dictGet quotes (pyUpper h.symbol)).getD { symbol := h.symbol } := rfl
  refine ⟨rfl, ?_, ?_⟩
  · intro p hp
    rw [hq] at hp
    refine ⟨?_, ?_, ?_, ?_⟩
    · show ((dictGet quotes (pyUpper h.symbol)).getD { symbol := h.symbol }).price.map
        (fun p => h.quantity * p) = _
      rw [hp]; rfl
    · show (((dictGet quotes (pyUpper h.symbol)).getD { symbol := h.symbol }).price.map
        (fun p => h.quantity * p)).map (fun mv => mv - h.book_value) = _
      rw [hp]; rfl
    · intro hpos
      show (match ((dictGet quotes (pyUpper h.symbol)).getD { symbol := h.symbol }).price.map
          (fun p => h.quantity * p) with
        | some mv => if h.book_value > 0 then some (mv / h.book_value - 1) else none
        | none => none) = _
      rw [hp]
      simp [hpos]
    · intro hzero
      show (match ((dictGet quotes (pyUpper h.symbol)).getD { symbol := h.symbol }).price.map
          (fun p => h.quantity * p) with
        | some mv => if h.book_value > 0 then some (mv / h.book_value - 1) else none
        | none => none) = _
      rw [hp]
      simp [hzero]
  · intro hp
    rw [hq] at hp
    refine ⟨?_, ?_, ?_⟩
    · show ((dictGet quotes (pyUpper h.symbol)).getD { symbol := h.symbol }).price.map
        (fun p => h.quantity * p) = _
      rw [hp]; rfl
    · show (((dictGet quotes (pyUpper h.symbol)).getD { symbol := h.symbol }).price.map
        (fun p => h.quantity * p)).map (fun mv => mv - h.book_value) = _
      rw [hp]; rfl
    · show (match ((dictGet quotes (pyUpper h.symbol)).getD { symbol := h.symbol }).price.map
          (fun p => h.quantity * p) with
        | some mv => if h.book_value > 0 then some (mv / h.book_value - 1) else none
        | none => none) = _
      rw [hp]
      rfl

/-- Every element of a successful `snapshots` call is the snapshot of some
selected (definition, holding) pair. -/
theorem snapshots_mem (s : PortfolioStore) (quotes : List (String × PriceQuote))
    (portfolio_id : Option String) (snaps : List HoldingSnapshot) (snap : HoldingSnapshot)
    (hok : s.snapshots quotes portfolio_id = .ok snaps) (hmem : snap ∈ snaps) :
    ∃ d h, snap = mkSnapshot quotes d h := by
  obtain ⟨l, _, rfl⟩ := except_map_eq_ok hok
  obtain ⟨dh, _, rfl⟩ := List.mem_map.1 hmem
  exact ⟨dh.1, dh.2, rfl⟩

/-- C1.  For every holding `h` paired with a quote of price `p` by
`snapshots`: when `p` is present, `market_value = h.quantity × p`,
`gain_abs = market_value − book_value(h)`, and
`gain_pct = market_value / book_value(h) − 1` when `book_value(h) > 0` and
absent when `book_value(h) = 0`; when `p` is absent, `market_value`,
`gain_abs` and `gain_pct` are all absent. -/
theorem snapshots_pair_valuation (s : PortfolioStore) (quotes : List (String × PriceQuote))
    (portfolio_id : Option String) (snaps : List HoldingSnapshot) (snap : HoldingSnapshot)
    (hok : s.snapshots quotes portfolio_id = .ok snaps) (hmem : snap ∈ snaps) :
    (∀ p, snap.quote.price = some p →
      snap.market_value = some (snap.holding.quantity * p) ∧
      snap.gain_abs = some (snap.holding.quantity * p - snap.holding.book_value) ∧
      (snap.holding.book_value > 0 →
        snap.gain_pct = some (snap.holding.quantity * p / snap.holding.book_value - 1)) ∧
      (snap.holding.book_value = 0 → snap.gain_pct = none)) ∧
    (snap.quote.price = none →
      snap.market_value = none ∧ snap.gain_abs = none ∧ snap.gain_pct = none) := by
  obtain ⟨d, h, rfl⟩ := snapshots_mem s quotes portfolio_id snaps snap hok hmem
  obtain ⟨hh, h1, h2⟩ := mkSnapshot_spec quotes d h
  rw [hh]
  exact ⟨h1, h2⟩

/-- C2.  The spec scenario: base currency USD, one portfolio `"p1"` holding
`{symbol "X", quantity 10, cost_basis 5}` and a quote price 7 for `"X"`;
`summary("p1")` yields `total_book = 50.00`, `total_market = 70.00`,
`total_gain = 20.00`, `total_gain_pct = 0.4000` (monetary totals rounded to
2 decimals, the percentage to 4). -/
theorem summary_concrete_scenario :
    c2Store.summary c2Quotes (some "p1") =
      .ok { base_currency := "USD", portfolio_id := "p1", portfolio_name := none,
            total_book := 50, total_market := 70, total_gain := 20,
            total_gain_pct := 2/5, symbols := ["X"], holding_count := 1 } := by
  have hstep : c2Store.summary c2Quotes (some "p1")
      = .ok (summaryRecord c2Store [mkSnapshot c2Quotes c2Def c2Holding] ("p1", none)) := rfl
  rw [hstep]
  congr 1
  have hhold : (mkSnapshot c2Quotes c2Def c2Holding).holding = c2Holding := rfl
  have hmv : (mkSnapshot c2Quotes c2Def c2Holding).market_value = some 70 := by
    have h0 : (mkSnapshot c2Quotes c2Def c2Holding).market_value = some ((10 : ℚ) * 7) := rfl
    rw [h0]; norm_num
  have hb : c2Holding.book_value = 50 := by
    have h0 : c2Holding.book_value = (10 : ℚ) * 5 := rfl
    rw [h0]; norm_num
  simp only [summaryRecord, List.map_cons, List.map_nil, List.sum_cons, List.sum_nil,
    hhold, hmv, hb, Option.getD_some, add_zero]
  rw [pyRound_eq_self 50 2 5000 (by norm_num), pyRound_eq_self 70 2 7000 (by norm_num)]
  norm_num
  exact ⟨rfl, pyRound_eq_self 20 2 2000 (by norm_num),
    pyRound_eq_self (2/5) 4 4000 (by norm_num), rfl⟩

/-- C4 (code bug).  Constructing the store over a missing portfolio file
leaves the portfolio map empty — the early return in `reload` never builds
it — so the store does not contain a `"default"` portfolio and reads scoped
to it fail with an unknown-portfolio error.  By contrast, a file that exists
but is empty does produce the `{"default"}` map the claim describes. -/
theorem missing_file_store_has_no_default :
    (mkStore none).1.portfoliosCache = [] ∧
    (mkStore none).1.snapshots [] (some DEFAULT_PORTFOLIO_ID) =
      .error "Unknown portfolio id: default" ∧
    (mkStore none).1.summary [] (some DEFAULT_PORTFOLIO_ID) =
      .error "Unknown portfolio id: default" ∧
    (mkStore (some { base_currency := "USD" })).1.portfoliosCache =
      [(DEFAULT_PORTFOLIO_ID, defaultPortfolio [])] := by
  decide

/-- C10.  For a scope whose selected holdings sum to a zero book value,
`summary` still succeeds, reports `total_gain_pct = 0.0` exactly, and its
`total_gain` equals its `total_market` (the gain is market minus a zero
book). -/
theorem summary_zero_book (s : PortfolioStore) (quotes : List (String × PriceQuote))
    (portfolio_id : Option String) (snaps : List HoldingSnapshot)
    (hok : s.snapshots quotes portfolio_id = .ok snaps)
    (hzero : (snaps.map (fun snap => snap.holding.book_value)).sum = 0) :
    ∃ out, s.summary quotes portfolio_id = .ok out ∧
      out.total_gain_pct = 0 ∧ out.total_gain = out.total_market := by
  have hnames : ∃ nm, summaryNames s portfolio_id = .ok nm := by
    match portfolio_id with
    | none => exact ⟨_, rfl⟩
    | some p =>
      by_cases hp : p = ""
      · subst hp
        refine ⟨(AGGREGATE_PORTFOLIO_ID, some "All Portfolios"), ?_⟩
        simp [summaryNames]
      · have hd : ∃ d, dictGet s.portfoliosCache p = some d := by
          cases hd : dictGet s.portfoliosCache p with
          | none =>
            exfalso
            simp [PortfolioStore.snapshots, iterHoldings, hd, Except.map] at hok
          | some d => exact ⟨d, rfl⟩
        obtain ⟨d, hd⟩ := hd
        refine ⟨(d.id, d.name), ?_⟩
        simp [summaryNames, hp, hd]
  obtain ⟨nm, hnm⟩ := hnames
  refine ⟨summaryRecord s snaps nm, ?_, ?_, ?_⟩
  · unfold PortfolioStore.summary
    rw [hok, hnm]
  · show pyRound (if (snaps.map (fun h => h.holding.book_value)).sum ≠ 0 then _ else 0) 4 = 0
    rw [if_neg (by simp [hzero])]
    exact pyRound_zero 4
  · show pyRound ((snaps.map (fun h => h.market_value.getD 0)).sum
        - (snaps.map (fun h => h.holding.book_value)).sum) 2
      = pyRound ((snaps.map (fun h => h.market_value.getD 0)).sum) 2
    rw [hzero, sub_zero]

/-- Witness for the snapshot-valuation theorem at the spec scenario. -/
theorem snapshots_pair_valuation_witness :
    (c2Store.snapshots c2Quotes (some "p1") = .ok [c2Snap]) ∧ (c2Snap ∈ [c2Snap]) ∧
    ((∀ p, c2Snap.quote.price = some p →
      c2Snap.market_value = some (c2Snap.holding.quantity * p) ∧
      c2Snap.gain_abs = some (c2Snap.holding.quantity * p - c2Snap.holding.book_value) ∧
      (c2Snap.holding.book_value > 0 →
        c2Snap.gain_pct = some (c2Snap.holding.quantity * p / c2Snap.holding.book_value - 1)) ∧
      (c2Snap.holding.book_value = 0 → c2Snap.gain_pct = none)) ∧
    (c2Snap.quote.price = none →
      c2Snap.market_value = none ∧ c2Snap.gain_abs = none ∧ c2Snap.gain_pct = none)) :=
  ⟨rfl, List.mem_singleton.mpr rfl,
    snapshots_pair_valuation c2Store c2Quotes (some "p1") [c2Snap] c2Snap rfl
      (List.mem_singleton.mpr rfl)⟩

/-- Witness for the zero-book summary theorem at an empty portfolio. -/
theorem summary_zero_book_witness :
    (emptyPortfolioStore.snapshots [] (some "e") = .ok []) ∧
    ((([] : List HoldingSnapshot).map (fun snap => snap.holding.book_value)).sum = 0) ∧
    (∃ out, emptyPortfolioStore.summary [] (some "e") = .ok out ∧
      out.total_gain_pct = 0 ∧ out.total_gain = out.total_market) :=
  ⟨rfl, rfl, summary_zero_book emptyPortfolioStore [] (some "e") [] rfl rfl⟩

/-! ### Additivity of summary book totals (rounding analysis) -/

theorem rndHalfEven_low (q : ℚ) (n : ℤ) (hfl : ⌊q⌋ = n) (h : q - n < 1/2) :
    rndHalfEven q = n := by
  unfold rndHalfEven
  rw [hfl, if_pos h]

theorem rndHalfEven_high (q : ℚ) (n : ℤ) (hfl : ⌊q⌋ = n) (h : 1/2 < q - n) :
    rndHalfEven q = n + 1 := by
  unfold rndHalfEven
  rw [hfl, if_neg (by linarith), if_pos h]

theorem pyRound_tiny : pyRound (1/250 : ℚ) 2 = 0 := by
  unfold pyRound
  rw [show (1/250 : ℚ) * 10^2 = 2/5 from by norm_num,
    rndHalfEven_low (2/5) 0 (by rw [Int.floor_eq_iff]; norm_num) (by norm_num)]
  norm_num

theorem pyRound_two_tiny : pyRound (1/125 : ℚ) 2 = 1/100 := by
  unfold pyRound
  rw [show (1/125 : ℚ) * 10^2 = 4/5 from by norm_num,
    rndHalfEven_high (4/5) 0 (by rw [Int.floor_eq_iff]; norm_num) (by norm_num)]
  norm_num

theorem pyRound_eq_self_of_centValued (q : ℚ) (h : centValued q) : pyRound q 2 = q := by
  obtain ⟨z, hz⟩ := h
  exact pyRound_eq_self q 2 z (by rw [show ((10 : ℚ)^2) = 100 from by norm_num, hz])

theorem centValued_listSum (l : List ℚ) (h : ∀ q ∈ l, centValued q) : centValued l.sum := by
  induction l with
  | nil => exact ⟨0, by norm_num⟩
  | cons x xs ih =>
    obtain ⟨z1, hz1⟩ := h x (List.mem_cons_self x xs)
    obtain ⟨z2, hz2⟩ := ih (fun q hq => h q (List.mem_cons_of_mem x hq))
    exact ⟨z1 + z2, by rw [List.sum_cons, add_mul, hz1, hz2]; push_cast; ring⟩

/-- In a dictionary with distinct keys, every entry is found by its key. -/
theorem dictGet_of_mem_nodup {β : Type} :
    ∀ (m : List (String × β)) (kv : String × β),
      kv ∈ m → (dictKeys m).Nodup → dictGet m kv.1 = some kv.2
  | [], kv, hmem, _ => absurd hmem (List.not_mem_nil kv)
  | e :: rest, kv, hmem, hnd => by
    have hnd' : ¬ e.1 ∈ dictKeys rest ∧ (dictKeys rest).Nodup := by
      simpa [dictKeys] using List.nodup_cons.mp hnd
    rcases List.mem_cons.mp hmem with rfl | hmem'
    · simp [dictGet, List.find?]
    · have hne : ¬ e.1 = kv.1 := by
        intro heq
        exact hnd'.1 (heq ▸ List.mem_map.mpr ⟨kv, hmem', rfl⟩)
      have ih := dictGet_of_mem_nodup rest kv hmem' hnd'.2
      simpa [dictGet, List.find?, hne] using ih

/-- The book values of the snapshots of one portfolio are the book values of
its holdings. -/
theorem snaps_book_values (quotes : List (String × PriceQuote)) (d : PortfolioDefinition) :
    (d.holdings.map (fun h => mkSnapshot quotes d h)).map (fun x => x.holding.book_value)
      = d.holdings.map Holding.book_value := by
  rw [List.map_map]
  rfl

/-- The call `summary(pid)` reports `total_book = round(bookSum, 2)` for the looked-up
portfolio. -/
theorem summary_some_total_book (s : PortfolioStore) (quotes : List (String × PriceQuote))
    (pid : String) (d : PortfolioDefinition) (hget : dictGet s.portfoliosCache pid = some d) :
    (s.summary quotes (some pid)).map (fun out => out.total_book)
      = .ok (pyRound (bookSum d.holdings) 2) := by
  have hsnaps : s.snapshots quotes (some pid)
      = .ok (d.holdings.map (fun h => mkSnapshot quotes d h)) := by
    simp [PortfolioStore.snapshots, iterHoldings, hget, Except.map]
  have hbooks : ((d.holdings.map (fun h => mkSnapshot quotes d h)).map
      (fun x => x.holding.book_value)).sum = bookSum d.holdings := by
    rw [snaps_book_values]; rfl
  by_cases hpid : pid = ""
  · have hnames : summaryNames s (some pid)
        = .ok (AGGREGATE_PORTFOLIO_ID, some "All Portfolios") := by
      simp [summaryNames, hpid]
    unfold PortfolioStore.summary
    rw [hsnaps, hnames]
    simp only [Except.map, summaryRecord, hbooks]
  · have hnames : summaryNames s (some pid) = .ok (d.id, d.name) := by
      simp [summaryNames, hpid, hget]
    unfold PortfolioStore.summary
    rw [hsnaps, hnames]
    simp only [Except.map, summaryRecord, hbooks]

/-- Here `summaryTotalBooks` collects exactly the rounded per-portfolio book
sums when every listed entry is found in the cache. -/
theorem summaryTotalBooks_eq (s : PortfolioStore) (quotes : List (String × PriceQuote)) :
    ∀ (m : List (String × PortfolioDefinition)),
      (∀ kv ∈ m, dictGet s.portfoliosCache kv.1 = some kv.2) →
      summaryTotalBooks s quotes m
        = .ok (m.map (fun kv => pyRound (bookSum kv.2.holdings) 2))
  | [], _ => rfl
  | kv :: rest, h => by
    have hsum := summary_some_total_book s quotes kv.1 kv.2 (h kv (List.mem_cons_self kv rest))
    have ih := summaryTotalBooks_eq s quotes rest (fun e he => h e (List.mem_cons_of_mem kv he))
    simp only [summaryTotalBooks, hsum, ih, List.map_cons]

/-- The aggregate snapshot book total is the sum of the per-portfolio book
sums. -/
theorem agg_book_sum (quotes : List (String × PriceQuote)) :
    ∀ (m : List (String × PortfolioDefinition)),
      (((m.map (fun e => e.2.holdings.map (fun h => (e.2, h)))).flatten.map
        (fun dh => mkSnapshot quotes dh.1 dh.2)).map (fun x => x.holding.book_value)).sum
      = (m.map (fun kv => bookSum kv.2.holdings)).sum
  | [] => rfl
  | e :: rest => by
    have ih := agg_book_sum quotes rest
    simp only [List.map_cons, List.flatten_cons, List.map_append, List.sum_append,
      List.sum_cons, List.map_map]
    have hhead : (List.map ((fun x => x.holding.book_value)
        ∘ (fun dh => mkSnapshot quotes dh.1 dh.2) ∘ fun h => (e.2, h)) e.2.holdings).sum
        = bookSum e.2.holdings := rfl
    simp only [List.map_map] at ih
    rw [hhead, ih]

theorem sum_pyRound_cent (m : List (String × PortfolioDefinition))
    (h : ∀ kv ∈ m, centValued (bookSum kv.2.holdings)) :
    (m.map (fun kv => pyRound (bookSum kv.2.holdings) 2)).sum
      = (m.map (fun kv => bookSum kv.2.holdings)).sum := by
  induction m with
  | nil => rfl
  | cons e rest ih =>
    simp only [List.map_cons, List.sum_cons]
    rw [pyRound_eq_self_of_centValued _ (h e (List.mem_cons_self e rest)),
      ih (fun kv hkv => h kv (List.mem_cons_of_mem e hkv))]

/-- C3 (corrected), counterexample to the claim as stated.  Two portfolios
each holding one unit at cost basis `0.004`: the per-portfolio summaries
round each `total_book` to `0.00`, while the aggregate summary rounds the
combined `0.008` to `0.01`, so the aggregate `total_book` is not the sum of
the per-portfolio `total_book` figures. -/
theorem summary_total_book_additive_cex :
    (c3Store.summary [] none).map (fun out => out.total_book) = .ok (1/100) ∧
    (c3Store.summary [] (some "a")).map (fun out => out.total_book) = .ok 0 ∧
    (c3Store.summary [] (some "b")).map (fun out => out.total_book) = .ok 0 ∧
    (1/100 : ℚ) ≠ 0 + 0 := by
  have hbook : (tinyHolding "A").book_value = 1/250 := by
    have h0 : (tinyHolding "A").book_value = (1 : ℚ) * (1/250) := rfl
    rw [h0]; norm_num
  have hbookB : (tinyHolding "B").book_value = 1/250 := by
    have h0 : (tinyHolding "B").book_value = (1 : ℚ) * (1/250) := rfl
    rw [h0]; norm_num
  refine ⟨?_, ?_, ?_, by norm_num⟩
  · have hstep : (c3Store.summary [] none).map (fun out => out.total_book)
        = .ok (pyRound ((tinyHolding "A").book_value + ((tinyHolding "B").book_value + 0)) 2) :=
      rfl
    rw [hstep, hbook, hbookB, show (1/250 : ℚ) + (1/250 + 0) = 1/125 from by norm_num,
      pyRound_two_tiny]
  · have hstep : (c3Store.summary [] (some "a")).map (fun out => out.total_book)
        = .ok (pyRound ((tinyHolding "A").book_value + 0) 2) := rfl
    rw [hstep, hbook, show (1/250 : ℚ) + 0 = 1/250 from by norm_num, pyRound_tiny]
  · have hstep : (c3Store.summary [] (some "b")).map (fun out => out.total_book)
        = .ok (pyRound ((tinyHolding "B").book_value + 0) 2) := rfl
    rw [hstep, hbookB, show (1/250 : ℚ) + 0 = 1/250 from by norm_num, pyRound_tiny]

/-- C3 (amended).  For a store whose portfolio map has distinct keys and
whose per-portfolio (pre-rounding) book totals are exact multiples of
`0.01`, the aggregate summary's `total_book` equals the sum of the
per-portfolio `summary(id).total_book` figures.  (Without the cent-multiple
proviso the 2-decimal rounding applied inside each summary can break the
equality, as the counterexample shows.) -/
theorem summary_total_book_additive (s : PortfolioStore) (quotes : List (String × PriceQuote))
    (hnd : (dictKeys s.portfoliosCache).Nodup)
    (hcent : ∀ kv ∈ s.portfoliosCache, centValued (bookSum kv.2.holdings)) :
    ∃ agg books, s.summary quotes none = .ok agg ∧
      summaryTotalBooks s quotes s.portfoliosCache = .ok books ∧
      agg.total_book = books.sum := by
  have hbooks := summaryTotalBooks_eq s quotes s.portfoliosCache
    (fun kv hkv => dictGet_of_mem_nodup s.portfoliosCache kv hkv hnd)
  refine ⟨_, _, rfl, hbooks, ?_⟩
  show pyRound (((((s.portfoliosCache.map (fun e => e.2.holdings.map (fun h => (e.2, h)))).flatten).map
      (fun dh => mkSnapshot quotes dh.1 dh.2)).map (fun x => x.holding.book_value)).sum) 2 = _
  rw [agg_book_sum quotes s.portfoliosCache,
    pyRound_eq_self_of_centValued _ (centValued_listSum _ (by
      intro q hq
      obtain ⟨kv, hkv, rfl⟩ := List.mem_map.mp hq
      exact hcent kv hkv)),
    sum_pyRound_cent s.portfoliosCache hcent]

/-- Witness for the amended additivity theorem at a two-portfolio store. -/
theorem summary_total_book_additive_witness :
    ((dictKeys twoEmptyStore.portfoliosCache).Nodup) ∧
    (∀ kv ∈ twoEmptyStore.portfoliosCache, centValued (bookSum kv.2.holdings)) ∧
    (∃ agg books, twoEmptyStore.summary [] none = .ok agg ∧
      summaryTotalBooks twoEmptyStore [] twoEmptyStore.portfoliosCache = .ok books ∧
      agg.total_book = books.sum) := by
  have hnd : (dictKeys twoEmptyStore.portfoliosCache).Nodup := by decide
  have hcent : ∀ kv ∈ twoEmptyStore.portfoliosCache, centValued (bookSum kv.2.holdings) := by
    intro kv hkv
    have hempty : kv.2.holdings = [] := by fin_cases hkv <;> rfl
    exact ⟨0, by rw [hempty]; norm_num [bookSum]⟩
  exact ⟨hnd, hcent, summary_total_book_additive twoEmptyStore [] hnd hcent⟩

/-! ### Dictionary lemmas for the TTL cache -/

theorem dictGet_cons_self {β : Type} (k : String) (v : β) (m : List (String × β)) :
    dictGet ((k, v) :: m) k = some v := by
  simp [dictGet, List.find?]

theorem dictSet_of_not_mem {β : Type} (m : List (String × β)) (k : String) (v : β)
    (h : dictGet m k = none) : dictSet m k v = m ++ [(k, v)] := by
  unfold dictSet
  rw [if_neg]
  intro hany
  obtain ⟨e, hmem, he⟩ := List.any_eq_true.mp hany
  have hfind : (m.find? (fun e => e.1 = k)) = none := by
    cases hf : m.find? (fun e => e.1 = k) with
    | none => rfl
    | some a => rw [dictGet, hf] at h; simp at h
  exact (List.find?_eq_none.mp hfind e hmem) he

theorem dictGet_append_left {β : Type} (m l : List (String × β)) (k : String) (e : β)
    (h : dictGet m k = some e) : dictGet (m ++ l) k = some e := by
  unfold dictGet at h ⊢
  rw [List.find?_append]
  cases hf : m.find? (fun x => x.1 = k) with
  | none => rw [hf] at h; simp at h
  | some a => rw [hf] at h; simpa using h

theorem dictGet_append_self {β : Type} (m : List (String × β)) (k : String) (v : β)
    (h : dictGet m k = none) : dictGet (m ++ [(k, v)]) k = some v := by
  unfold dictGet at h ⊢
  rw [List.find?_append]
  cases hf : m.find? (fun x => x.1 = k) with
  | none => simp [List.find?]
  | some a => rw [hf] at h; simp at h

theorem mem_append_singleton {β : Type} {m : List (String × β)} {k : String} {v : β}
    {kv : String × β} (h : kv ∈ m ++ [(k, v)]) : kv ∈ m ∨ kv = (k, v) := by
  rcases List.mem_append.mp h with h' | h'
  · exact Or.inl h'
  · exact Or.inr (List.mem_singleton.mp h')

/-! ### Symbol normalization and cache sharing -/

/-- C8 (corrected), counterexample.  The `.HK` zero-stripping only applies
to symbols longer than 5 characters, so the spellings `"01.HK"` and
`"1.HK"` keep distinct cache keys — the claim's example fails. -/
theorem hk_normalization_cex :
    normApp "01.HK" = "01.HK" ∧ normApp "1.HK" = "1.HK" ∧
    normApp "01.HK" ≠ normApp "1.HK" :=
  ⟨rfl, rfl, by decide⟩

/-- A cache hit: a live entry under the normalized key is served without a
provider fetch. -/
theorem getSymbol_cache_hit (norm : String → String) (st : PriceServiceState)
    (oracle : FetchOracle) (now : ℕ) (t : String) (e : CacheEntry)
    (hget : dictGet st.cache (norm t) = some e) (hfresh : e.expires_at > now) :
    getSymbol norm st oracle now t = (e.quote, st, false) := by
  simp only [getSymbol]
  rw [hget]
  simp [hfresh]

/-- C8 (amended).  Two spellings that agree up to letter case always share
one cache key; for `.HK` codes longer than 5 characters the leading zeros
are stripped, so `"0700.HK"` and `"700.HK"` share the key `"700.HK"`; and
for any two spellings with equal keys, a fresh fetch for the first makes a
later lookup of the second (within the TTL, with a positive TTL) a cache
hit that returns the same quote with no provider fetch.  (Spellings whose
upper-cased form is at most 5 characters, such as `"01.HK"` vs `"1.HK"`,
are not zero-stripped and keep separate entries.) -/
theorem hk_normalization_cache_sharing :
    (∀ s t : String, pyUpper s = pyUpper t → normApp s = normApp t) ∧
    (normApp "0700.HK" = "700.HK" ∧ normApp "700.HK" = "700.HK") ∧
    (∀ (maxRetries ttl t1 t2 : ℕ) (oracle : FetchOracle) (s t : String),
      normApp s = normApp t → 0 < ttl → t2 < t1 + ttl →
      (getSymbol normApp ((getSymbol normApp ⟨maxRetries, ttl, []⟩ oracle t1 s).2.1)
          oracle t2 t).1
        = (getSymbol normApp ⟨maxRetries, ttl, []⟩ oracle t1 s).1 ∧
      (getSymbol normApp ((getSymbol normApp ⟨maxRetries, ttl, []⟩ oracle t1 s).2.1)
          oracle t2 t).2.2 = false) := by
  refine ⟨?_, ⟨rfl, rfl⟩, ?_⟩
  · intro s t h
    unfold normApp
    rw [h]
  · intro maxRetries ttl t1 t2 oracle s t hkey httl h2
    have h1 : getSymbol normApp ⟨maxRetries, ttl, []⟩ oracle t1 s
        = (fetchQuoteSync maxRetries (oracle (normApp s)) t1 (normApp s),
           ⟨maxRetries, ttl,
             [(normApp s,
               ⟨fetchQuoteSync maxRetries (oracle (normApp s)) t1 (normApp s), t1 + ttl⟩)]⟩,
           true) := rfl
    rw [h1]
    have hhit := getSymbol_cache_hit normApp
      ⟨maxRetries, ttl,
        [(normApp s,
          ⟨fetchQuoteSync maxRetries (oracle (normApp s)) t1 (normApp s), t1 + ttl⟩)]⟩
      oracle t2 t
      ⟨fetchQuoteSync maxRetries (oracle (normApp s)) t1 (normApp s), t1 + ttl⟩
      (by rw [← hkey]; exact dictGet_cons_self _ _ _)
      (by simpa using h2)
    rw [hhit]
    exact ⟨rfl, rfl⟩

/-- Witness for the normalization/cache-sharing theorem: a case-variant
pair, the `"0700.HK"`/`"700.HK"` pair, and a concrete cache-hit replay. -/
theorem hk_normalization_cache_sharing_witness :
    (pyUpper "tsla" = pyUpper "TsLa") ∧
    (normApp "tsla" = normApp "TsLa") ∧
    (normApp "0700.HK" = normApp "700.HK" ∧ 0 < 60 ∧ 30 < 0 + 60) ∧
    ((getSymbol normApp ((getSymbol normApp ⟨2, 60, []⟩ w8Oracle 0 "0700.HK").2.1)
        w8Oracle 30 "700.HK").1
      = (getSymbol normApp ⟨2, 60, []⟩ w8Oracle 0 "0700.HK").1 ∧
     (getSymbol normApp ((getSymbol normApp ⟨2, 60, []⟩ w8Oracle 0 "0700.HK").2.1)
        w8Oracle 30 "700.HK").2.2 = false) :=
  ⟨by decide,
   hk_normalization_cache_sharing.1 "tsla" "TsLa" (by decide),
   ⟨by decide, by decide, by decide⟩,
   hk_normalization_cache_sharing.2.2 2 60 0 30 w8Oracle "0700.HK" "700.HK"
     (by decide) (by decide) (by decide)⟩

/-! ### Retrying fetch (`_fetch_quote_sync`) -/

/-- If every remaining attempt fails, the loop never sets a price. -/
theorem runAttempts_price_none (oracle : ℕ → FetchOutcome) :
    ∀ (n start : ℕ) (st : Option ℚ × Option String × Option String),
      st.1 = none → (∀ i, i < n → attemptFails (oracle (start + i)) = true) →
      (runAttempts oracle start n st).1 = none
  | 0, _, _, hst, _ => hst
  | Nat.succ n, start, st, hst, h => by
    have h0 : attemptFails (oracle start) = true := by
      have := h 0 (Nat.succ_pos n)
      simpa using this
    have hshift : ∀ i, i < n → attemptFails (oracle (start + 1 + i)) = true := by
      intro i hi
      have := h (i + 1) (by omega)
      rwa [show start + (i + 1) = start + 1 + i from by omega] at this
    cases hor : oracle start with
    | raises e =>
      simp only [runAttempts, hor]
      exact runAttempts_price_none oracle n (start + 1) _ hst hshift
    | returns p c =>
      have hp : p = none := by
        rw [hor] at h0
        simpa [attemptFails, Option.isNone_iff_eq_none] using h0
      subst hp
      simp only [runAttempts, hor, Option.isSome_none, Bool.false_eq_true, if_false]
      exact runAttempts_price_none oracle n (start + 1) _ rfl hshift

/-- The fetch `_fetch_quote_sync` yields a quote with no price when every attempt up
to the retry budget fails. -/
theorem fetchQuoteSync_price_none (maxRetries : ℕ) (oracle : ℕ → FetchOutcome) (now : ℕ)
    (symbol : String) (h : ∀ i, i < maxRetries + 1 → attemptFails (oracle i) = true) :
    (fetchQuoteSync maxRetries oracle now symbol).price = none := by
  show (runAttempts oracle 0 (maxRetries + 1) (none, none, none)).1 = none
  exact runAttempts_price_none oracle (maxRetries + 1) 0 _ rfl (fun i hi => by
    simpa using h i hi)

/-- C6.  When every fetch attempt up to the configured maximum retry count
fails (raises or yields no price), `get_quotes` still returns normally — the
embedding of `_fetch_quote_sync` is a total function into `PriceQuote`
because each attempt's exception is caught inside the loop — and the failed
symbol's entry in the returned mapping is a quote with `price` absent. -/
theorem get_quotes_absorbs_failed_fetch (maxRetries ttl : ℕ) (oracle : FetchOracle)
    (now : ℕ) (symbol : String)
    (hfail : ∀ i, i < maxRetries + 1 → attemptFails (oracle (normMcp symbol) i) = true) :
    ∃ q : PriceQuote,
      (getQuotes normMcp ⟨maxRetries, ttl, []⟩ oracle now [symbol]).1
        = [(pyUpper q.symbol, q)] ∧
      q.symbol = normMcp symbol ∧ q.price = none ∧ q.fetched_at = some now := by
  refine ⟨fetchQuoteSync maxRetries (oracle (normMcp symbol)) now (normMcp symbol),
    rfl, rfl, ?_, rfl⟩
  exact fetchQuoteSync_price_none maxRetries (oracle (normMcp symbol)) now (normMcp symbol) hfail

/-- Witness for the retry-exhaustion theorem. -/
theorem get_quotes_absorbs_failed_fetch_witness :
    (∀ i, i < 1 + 1 → attemptFails (w6Oracle (normMcp "ibm") i) = true) ∧
    (∃ q : PriceQuote,
      (getQuotes normMcp ⟨1, 300, []⟩ w6Oracle 5 ["ibm"]).1 = [(pyUpper q.symbol, q)] ∧
      q.symbol = normMcp "ibm" ∧ q.price = none ∧ q.fetched_at = some 5) :=
  ⟨by decide, get_quotes_absorbs_failed_fetch 1 300 w6Oracle 5 "ibm" (by decide)⟩

/-! ### Lookup membership, and the scheduler module's import failure -/

theorem mem_of_dictGet {β : Type} {m : List (String × β)} {k : String} {e : β}
    (h : dictGet m k = some e) : (k, e) ∈ m := by
  unfold dictGet at h
  cases hf : m.find? (fun x => x.1 = k) with
  | none => rw [hf] at h; simp at h
  | some a =>
    rw [hf] at h
    have h2 : a.2 = e := by simpa using h
    have hk : a.1 = k := by simpa using List.find?_some hf
    have hm := List.mem_of_find?_eq_some hf
    have ha : a = (k, e) := by
      rw [← hk, ← h2]
    exact ha ▸ hm

/-- C9.  The claimed idempotence of `ensure_warm` is not a property the
program can exhibit: running the tokenizer's indentation rule over the
indentation profile of `src/app/scheduler.py` raises
`IndentationError: unindent does not match any outer indentation level`
(the dedent to the `cached_quotes` line fails because the `refresh_now`
`def` line sits at module level), so importing `app.scheduler` fails before
any of its statements runs and no `PricePoller` — hence no `ensure_warm`
call — ever exists; the same profile with that one `def` line restored to
method depth is well-formed. -/
theorem ensure_warm_import_fails :
    checkIndents [0] schedulerIndents
      = Except.error "unindent does not match any outer indentation level" ∧
    checkIndents [0] schedulerIndentsIntended = Except.ok () :=
  ⟨rfl, rfl⟩


/-! ### The portfolio map builder, characterized -/

theorem dictGet_eq_none_iff {β : Type} (m : List (String × β)) (k : String) :
    dictGet m k = none ↔ ¬ k ∈ dictKeys m := by
  constructor
  · intro h hmem
    obtain ⟨e, hmem', he⟩ := List.mem_map.mp hmem
    have hf : m.find? (fun x => x.1 = k) = none := by
      cases hf' : m.find? (fun x => x.1 = k) with
      | none => rfl
      | some a => rw [dictGet, hf'] at h; simp at h
    exact (List.find?_eq_none.mp hf e hmem') (by simp [he])
  · intro h
    unfold dictGet
    cases hf : m.find? (fun x => x.1 = k) with
    | none => rfl
    | some a =>
      exact absurd (List.mem_map.mpr
        ⟨a, List.mem_of_find?_eq_some hf, by simpa using List.find?_some hf⟩) h

theorem buildEntries_ok_val :
    ∀ (ds : List PortfolioDefinition) (acc m : List (String × PortfolioDefinition)),
      buildEntries acc ds = .ok m → m = acc ++ ds.map (fun d => (d.id, d))
  | [], acc, m, h => by
    simp only [buildEntries] at h
    simp [← Except.ok.inj h]
  | d :: ds, acc, m, h => by
    simp only [buildEntries] at h
    by_cases h1 : d.id = ""
    · rw [if_pos h1] at h; exact absurd h (by simp)
    · rw [if_neg h1] at h
      by_cases h2 : acc.any (fun e => e.1 = d.id) = true
      · rw [if_pos h2] at h; exact absurd h (by simp)
      · rw [if_neg h2] at h
        have := buildEntries_ok_val ds (acc ++ [(d.id, d)]) m h
        simpa using this

theorem buildEntries_ok_conds :
    ∀ (ds : List PortfolioDefinition) (acc m : List (String × PortfolioDefinition)),
      buildEntries acc ds = .ok m →
      (∀ d ∈ ds, d.id ≠ "") ∧ (ds.map (fun d => d.id)).Nodup ∧
      (∀ d ∈ ds, ∀ e ∈ acc, e.1 ≠ d.id)
  | [], _, _, _ => by simp
  | d :: ds, acc, m, h => by
    simp only [buildEntries] at h
    by_cases h1 : d.id = ""
    · rw [if_pos h1] at h; exact absurd h (by simp)
    · rw [if_neg h1] at h
      by_cases h2 : acc.any (fun e => e.1 = d.id) = true
      · rw [if_pos h2] at h; exact absurd h (by simp)
      · rw [if_neg h2] at h
        obtain ⟨hids, hnd, hacc⟩ := buildEntries_ok_conds ds (acc ++ [(d.id, d)]) m h
        have hnotin : ¬ d.id ∈ ds.map (fun d => d.id) := by
          intro hmem
          obtain ⟨d', hd', he⟩ := List.mem_map.mp hmem
          exact hacc d' hd' (d.id, d) (by simp) he.symm
        refine ⟨?_, ?_, ?_⟩
        · intro d' hd'
          rcases List.mem_cons.mp hd' with rfl | hd'
          · exact h1
          · exact hids d' hd'
        · rw [List.map_cons, List.nodup_cons]
          exact ⟨hnotin, hnd⟩
        · intro d' hd' e he
          rcases List.mem_cons.mp hd' with rfl | hd'
          · intro heq
            exact h2 (List.any_eq_true.mpr ⟨e, he, by simp [heq]⟩)
          · exact hacc d' hd' e (List.mem_append.mpr (Or.inl he))

theorem buildEntries_ok_of :
    ∀ (ds : List PortfolioDefinition) (acc : List (String × PortfolioDefinition)),
      (∀ d ∈ ds, d.id ≠ "") → (ds.map (fun d => d.id)).Nodup →
      (∀ d ∈ ds, ∀ e ∈ acc, e.1 ≠ d.id) →
      buildEntries acc ds = .ok (acc ++ ds.map (fun d => (d.id, d)))
  | [], acc, _, _, _ => by simp [buildEntries]
  | d :: ds, acc, hids, hnd, hacc => by
    simp only [buildEntries]
    rw [if_neg (hids d (List.mem_cons_self d ds)), if_neg]
    · have hrest := buildEntries_ok_of ds (acc ++ [(d.id, d)])
        (fun d' hd' => hids d' (List.mem_cons_of_mem d hd'))
        (by simpa [List.nodup_cons] using (List.nodup_cons.mp (by simpa using hnd)).2)
        (by
          intro d' hd' e he
          rcases mem_append_singleton he with he' | rfl
          · exact hacc d' (List.mem_cons_of_mem d hd') e he'
          · have : ¬ d.id ∈ ds.map (fun d => d.id) :=
              (List.nodup_cons.mp (by simpa using hnd)).1
            intro heq
            exact this (List.mem_map.mpr ⟨d', hd', heq.symm⟩))
      rw [hrest]
      simp
    · intro hany
      obtain ⟨e, he, heq⟩ := List.any_eq_true.mp hany
      exact hacc d (List.mem_cons_self d ds) e he (by simpa using heq)

/-- The builder `_build_portfolio_map` succeeds on explicit portfolios with non-empty,
pairwise distinct ids, and maps each portfolio under its id. -/
theorem buildPortfolioMap_ok_of (data : PortfolioFile) (hne : data.portfolios ≠ [])
    (hids : ∀ d ∈ data.portfolios, d.id ≠ "")
    (hnd : (data.portfolios.map (fun d => d.id)).Nodup) :
    buildPortfolioMap data = .ok (data.portfolios.map (fun d => (d.id, d))) := by
  unfold buildPortfolioMap
  rw [if_pos hne]
  have := buildEntries_ok_of data.portfolios [] hids hnd (by simp)
  simpa using this

/-- Lazy migration `_ensure_portfolios_initialized` keeps the persisted file and the
portfolio-map view of the data, leaves a consistent cache and a non-empty
explicit portfolio list. -/
theorem ensureInit_spec (s : PortfolioStore) (hwf : WellFormed s) :
    (ensurePortfoliosInitialized s).file = s.file ∧
    buildPortfolioMap (ensurePortfoliosInitialized s).data = buildPortfolioMap s.data ∧
    buildPortfolioMap (ensurePortfoliosInitialized s).data
      = .ok (ensurePortfoliosInitialized s).portfoliosCache ∧
    (ensurePortfoliosInitialized s).data.portfolios ≠ [] := by
  by_cases hp : s.data.portfolios = []
  · have he : ensurePortfoliosInitialized s
        = { s with
            data := { s.data with
              portfolios := [defaultPortfolio s.data.holdings], holdings := [] },
            portfoliosCache :=
              [(DEFAULT_PORTFOLIO_ID, defaultPortfolio s.data.holdings)] } := by
      unfold ensurePortfoliosInitialized
      rw [if_neg (by simp [hp])]
      rfl
    rw [he]
    refine ⟨rfl, ?_, rfl, by simp⟩
    have hl : buildPortfolioMap { s.data with
        portfolios := [defaultPortfolio s.data.holdings], holdings := [] }
        = .ok [(DEFAULT_PORTFOLIO_ID, defaultPortfolio s.data.holdings)] := rfl
    rw [hl]
    unfold buildPortfolioMap
    rw [if_neg (by simp [hp])]
    by_cases hh : s.data.holdings = []
    · rw [if_neg (by simp [hh]), hh]
    · rw [if_pos (by simpa using hh)]
  · have he : ensurePortfoliosInitialized s = s := by
      unfold ensurePortfoliosInitialized
      rw [if_pos (by simpa using hp)]
    rw [he]
    rcases hwf with hwf | hwf
    · exact absurd hwf hp
    · exact ⟨rfl, rfl, hwf, hp⟩

/-! ### Validation errors leave the store unchanged (up to lazy migration) -/

/-- What a mutating operation can rely on right after
`_ensure_portfolios_initialized`. -/
theorem mutation_preamble (s : PortfolioStore) (hwf : WellFormed s) :
    (∀ d ∈ (ensurePortfoliosInitialized s).data.portfolios, d.id ≠ "") ∧
    ((ensurePortfoliosInitialized s).data.portfolios.map (fun d => d.id)).Nodup ∧
    (ensurePortfoliosInitialized s).portfoliosCache
      = (ensurePortfoliosInitialized s).data.portfolios.map (fun d => (d.id, d)) ∧
    dictKeys (ensurePortfoliosInitialized s).portfoliosCache
      = (ensurePortfoliosInitialized s).data.portfolios.map (fun d => d.id) := by
  obtain ⟨-, -, hcache, hne⟩ := ensureInit_spec s hwf
  have hbe : buildEntries [] (ensurePortfoliosInitialized s).data.portfolios
      = .ok (ensurePortfoliosInitialized s).portfoliosCache := by
    unfold buildPortfolioMap at hcache
    rw [if_pos hne] at hcache
    exact hcache
  obtain ⟨hids, hnd, -⟩ := buildEntries_ok_conds _ _ _ hbe
  have hval : (ensurePortfoliosInitialized s).portfoliosCache
      = (ensurePortfoliosInitialized s).data.portfolios.map (fun d => (d.id, d)) := by
    simpa using buildEntries_ok_val _ _ _ hbe
  refine ⟨hids, hnd, hval, ?_⟩
  rw [hval]
  unfold dictKeys
  rw [List.map_map]
  rfl

/-- The looked-up portfolio of a consistent cache carries its key as id and
belongs to the data. -/
theorem dictGet_map_pair_id (l : List PortfolioDefinition) (pid : String)
    (d : PortfolioDefinition)
    (h : dictGet (l.map (fun d => (d.id, d))) pid = some d) : d.id = pid ∧ d ∈ l := by
  have hmem := mem_of_dictGet h
  obtain ⟨d', hd', he⟩ := List.mem_map.mp hmem
  simp only [Prod.mk.injEq] at he
  exact ⟨he.2 ▸ he.1, he.2 ▸ hd'⟩

/-- Replacing one portfolio by another with the same id keeps the id list. -/
theorem conds_replace (l : List PortfolioDefinition) (pid : String)
    (x : PortfolioDefinition) (hx : x.id = pid) :
    (l.map (fun p => if p.id = pid then x else p)).map (fun d => d.id)
      = l.map (fun d => d.id) := by
  rw [List.map_map]
  apply List.map_congr_left
  intro p hp
  by_cases h : p.id = pid
  · simp [h, hx]
  · simp [h]

theorem conds_replace_ids (l : List PortfolioDefinition) (pid : String)
    (x : PortfolioDefinition) (hx : x.id = pid) (hids : ∀ d ∈ l, d.id ≠ "") :
    ∀ d ∈ l.map (fun p => if p.id = pid then x else p), d.id ≠ "" := by
  intro d hd
  obtain ⟨p, hp, rfl⟩ := List.mem_map.mp hd
  by_cases h : p.id = pid
  · rw [if_pos h, hx, ← h]
    exact hids p hp
  · rw [if_neg h]
    exact hids p hp

theorem createPortfolio_err (s : PortfolioStore) (hwf : WellFormed s) (pid : String)
    (name notes : Option String)
    (herr : errOf (createPortfolio s pid name notes).2 ≠ none) :
    (createPortfolio s pid name notes).1 = ensurePortfoliosInitialized s := by
  obtain ⟨hids, hnd, hval, hkeys⟩ := mutation_preamble s hwf
  by_cases h1 : pid = ""
  · simp only [createPortfolio]
    rw [if_pos h1]
  · by_cases h2 : (dictGet (ensurePortfoliosInitialized s).portfoliosCache pid).isSome = true
    · simp only [createPortfolio]
      rw [if_neg h1, if_pos h2]
    · exfalso
      apply herr
      have hnone : dictGet (ensurePortfoliosInitialized s).portfoliosCache pid = none := by
        cases hget : dictGet (ensurePortfoliosInitialized s).portfoliosCache pid with
        | none => rfl
        | some d => rw [hget] at h2; simp at h2
      have hnotin : ¬ pid ∈ (ensurePortfoliosInitialized s).data.portfolios.map
          (fun d => d.id) := by
        rw [← hkeys]
        exact (dictGet_eq_none_iff _ _).mp hnone
      have hok := buildPortfolioMap_ok_of
        { (ensurePortfoliosInitialized s).data with
          portfolios := (ensurePortfoliosInitialized s).data.portfolios
            ++ [{ id := pid, name := name, notes := notes, holdings := [] }] }
        (by simp)
        (by
          intro d hd
          rcases List.mem_append.mp hd with h | h
          · exact hids d h
          · rw [List.mem_singleton.mp h]
            exact h1)
        (by
          rw [List.map_append, List.nodup_append]
          refine ⟨hnd, List.nodup_singleton _, ?_⟩
          intro a ha hb
          simp only [List.map_cons, List.map_nil, List.mem_singleton] at hb
          rw [hb] at ha
          exact hnotin ha)
      simp only [createPortfolio]
      rw [if_neg h1, if_neg h2]
      simp only [refreshCache, PortfolioStore.save]
      rw [hok]
      rfl

/-- A `_refresh_cache` call succeeds and reports no error when the map builds. -/
theorem refreshCache_err_none (s3 : PortfolioStore) (m : List (String × PortfolioDefinition))
    (hm : buildPortfolioMap s3.data = .ok m) :
    refreshCache s3 = ({ s3 with portfoliosCache := m }, none) := by
  unfold refreshCache
  rw [hm]

/-- A `save` then `_refresh_cache` on updated data reports no error when the
updated map builds. -/
theorem refreshCache_save_eq (s1 : PortfolioStore) (data2 : PortfolioFile)
    (m : List (String × PortfolioDefinition)) (hm : buildPortfolioMap data2 = .ok m) :
    refreshCache (PortfolioStore.save { s1 with data := data2 })
      = ({ data := data2, portfoliosCache := m, file := some data2 }, none) := by
  show (match buildPortfolioMap data2 with
    | .ok cache =>
      (({ data := data2, portfoliosCache := cache, file := some data2 } : PortfolioStore),
        (none : Option String))
    | .error e => (PortfolioStore.save { s1 with data := data2 }, some e)) = _
  rw [hm]

/-- Replacing one portfolio (same id) keeps the map buildable, and the new
map lists each updated portfolio under its id. -/
theorem buildPortfolioMap_replace_ok (s1 : PortfolioStore) (pid : String)
    (x : PortfolioDefinition) (hx : x.id = pid)
    (hids : ∀ d ∈ s1.data.portfolios, d.id ≠ "")
    (hnd : (s1.data.portfolios.map (fun d => d.id)).Nodup)
    (hne : s1.data.portfolios ≠ []) :
    buildPortfolioMap (replacePortfolio s1.data pid x)
      = .ok ((replacePortfolio s1.data pid x).portfolios.map (fun d => (d.id, d))) := by
  refine buildPortfolioMap_ok_of _ ?_ ?_ ?_
  · show s1.data.portfolios.map (fun p => if p.id = pid then x else p) ≠ []
    simpa using hne
  · exact conds_replace_ids _ pid x hx hids
  · show ((s1.data.portfolios.map (fun p => if p.id = pid then x else p)).map
      (fun d => d.id)).Nodup
    rw [conds_replace _ pid x hx]
    exact hnd

/-- Replacing one portfolio (same id) keeps the map buildable. -/
theorem refreshCache_replace_ok (s1 : PortfolioStore) (pid : String)
    (x : PortfolioDefinition) (hx : x.id = pid)
    (hids : ∀ d ∈ s1.data.portfolios, d.id ≠ "")
    (hnd : (s1.data.portfolios.map (fun d => d.id)).Nodup)
    (hne : s1.data.portfolios ≠ []) :
    ∃ m, buildPortfolioMap (replacePortfolio s1.data pid x) = .ok m :=
  ⟨_, buildPortfolioMap_replace_ok s1 pid x hx hids hnd hne⟩

theorem updatePortfolio_err (s : PortfolioStore) (hwf : WellFormed s) (pid : String)
    (name notes : Option String)
    (herr : errOf (updatePortfolio s pid name notes).2 ≠ none) :
    (updatePortfolio s pid name notes).1 = ensurePortfoliosInitialized s := by
  obtain ⟨hids, hnd, hval, hkeys⟩ := mutation_preamble s hwf
  cases hget : dictGet (ensurePortfoliosInitialized s).portfoliosCache pid with
  | none =>
    simp only [updatePortfolio, hget]
  | some definition =>
    exfalso
    apply herr
    obtain ⟨hdid, hdmem⟩ := dictGet_map_pair_id _ pid definition (hval ▸ hget)
    obtain ⟨mm, hm⟩ := refreshCache_replace_ok (ensurePortfoliosInitialized s) pid
      { definition with
        name := optOverride name definition.name,
        notes := optOverride notes definition.notes }
      hdid hids hnd (List.ne_nil_of_mem hdmem)
    simp only [updatePortfolio, hget]
    rw [refreshCache_save_eq _ _ mm hm]
    rfl

theorem deletePortfolio_err (s : PortfolioStore) (hwf : WellFormed s) (pid : String)
    (force : Bool)
    (herr : errOf (deletePortfolio s pid force).2 ≠ none) :
    (deletePortfolio s pid force).1 = ensurePortfoliosInitialized s := by
  obtain ⟨hids, hnd, hval, hkeys⟩ := mutation_preamble s hwf
  cases hget : dictGet (ensurePortfoliosInitialized s).portfoliosCache pid with
  | none =>
    simp only [deletePortfolio, hget]
  | some definition =>
    by_cases hlen : (ensurePortfoliosInitialized s).portfoliosCache.length ≤ 1
    · simp only [deletePortfolio, hget]
      rw [if_pos hlen]
    · by_cases hforce : definition.holdings ≠ [] ∧ force = false
      · simp only [deletePortfolio, hget]
        rw [if_neg hlen, if_pos hforce]
      · exfalso
        apply herr
        have hlen2 : 1 < (ensurePortfoliosInitialized s).data.portfolios.length := by
          have hc : (ensurePortfoliosInitialized s).portfoliosCache.length
              = (ensurePortfoliosInitialized s).data.portfolios.length := by
            rw [hval, List.length_map]
          omega
        have hne2 : (ensurePortfoliosInitialized s).data.portfolios.filter
            (fun p => p.id ≠ pid) ≠ [] := by
          intro hempty
          have hall : ∀ d ∈ (ensurePortfoliosInitialized s).data.portfolios, d.id = pid := by
            intro d hd
            by_contra hne'
            have hmem : d ∈ (ensurePortfoliosInitialized s).data.portfolios.filter
                (fun p => p.id ≠ pid) :=
              List.mem_filter.mpr ⟨hd, by simpa using hne'⟩
            rw [hempty] at hmem
            exact absurd hmem (List.not_mem_nil d)
          rcases hl : (ensurePortfoliosInitialized s).data.portfolios with _ | ⟨d1, rest⟩
          · rw [hl] at hlen2; simp at hlen2
          · rcases hr : rest with _ | ⟨d2, rest2⟩
            · rw [hl, hr] at hlen2; simp at hlen2
            · rw [hl, hr] at hnd hall
              have hd1 : d1.id = pid := hall d1 (by simp)
              have hd2 : d2.id = pid := hall d2 (by simp)
              rw [List.map_cons, List.nodup_cons] at hnd
              exact hnd.1 (by
                rw [hd1, ← hd2]
                exact List.mem_map_of_mem _ (List.mem_cons_self d2 rest2))
        have hok := buildPortfolioMap_ok_of
          { (ensurePortfoliosInitialized s).data with
            portfolios := (ensurePortfoliosInitialized s).data.portfolios.filter
              (fun p => p.id ≠ pid) }
          (by simpa using hne2)
          (by
            intro d hd
            exact hids d (List.mem_filter.mp hd).1)
          (by
            have hsub : ((ensurePortfoliosInitialized s).data.portfolios.filter
                (fun p => p.id ≠ pid)).Sublist
                (ensurePortfoliosInitialized s).data.portfolios :=
              List.filter_sublist _
            exact List.Nodup.sublist (hsub.map (fun d => d.id)) hnd)
        simp only [deletePortfolio, hget]
        rw [if_neg hlen, if_neg hforce, refreshCache_save_eq _ _ _ hok]
        rfl

theorem addHolding_err (s : PortfolioStore) (hwf : WellFormed s) (pid : String)
    (holding : Holding)
    (herr : errOf (addHolding s pid holding).2 ≠ none) :
    (addHolding s pid holding).1 = ensurePortfoliosInitialized s := by
  obtain ⟨hids, hnd, hval, hkeys⟩ := mutation_preamble s hwf
  cases hget : dictGet (ensurePortfoliosInitialized s).portfoliosCache pid with
  | none =>
    simp only [addHolding, hget]
  | some portfolio =>
    obtain ⟨hdid, hdmem⟩ := dictGet_map_pair_id _ pid portfolio (hval ▸ hget)
    by_cases hid : holding.id = none ∨ holding.id = some ""
    · exfalso
      apply herr
      obtain ⟨mm, hm⟩ := refreshCache_replace_ok (ensurePortfoliosInitialized s) pid
        { portfolio with holdings := portfolio.holdings ++
            [{ holding with id := some (generateHoldingId portfolio holding.symbol) }] }
        hdid hids hnd (List.ne_nil_of_mem hdmem)
      simp only [addHolding, hget]
      rw [if_pos hid, refreshCache_save_eq _ _ mm hm]
      rfl
    · by_cases hdup : portfolio.holdings.any (fun ex => decide (ex.id = holding.id)) = true
      · simp only [addHolding, hget]
        rw [if_neg hid, if_pos hdup]
      · exfalso
        apply herr
        obtain ⟨mm, hm⟩ := refreshCache_replace_ok (ensurePortfoliosInitialized s) pid
          { portfolio with holdings := portfolio.holdings ++ [holding] }
          hdid hids hnd (List.ne_nil_of_mem hdmem)
        simp only [addHolding, hget]
        rw [if_neg hid, if_neg hdup, refreshCache_save_eq _ _ mm hm]
        rfl

theorem removeHolding_err (s : PortfolioStore) (hwf : WellFormed s) (pid key : String)
    (herr : errOf (removeHolding s pid key).2 ≠ none) :
    (removeHolding s pid key).1 = ensurePortfoliosInitialized s := by
  obtain ⟨hids, hnd, hval, hkeys⟩ := mutation_preamble s hwf
  cases hget : dictGet (ensurePortfoliosInitialized s).portfoliosCache pid with
  | none =>
    simp only [removeHolding, hget]
  | some portfolio =>
    obtain ⟨hdid, hdmem⟩ := dictGet_map_pair_id _ pid portfolio (hval ▸ hget)
    cases hfind : findHoldingIndex portfolio key with
    | error e =>
      simp only [removeHolding, hget, hfind]
    | ok idx =>
      exfalso
      apply herr
      obtain ⟨mm, hm⟩ := refreshCache_replace_ok (ensurePortfoliosInitialized s) pid
        { portfolio with holdings := portfolio.holdings.eraseIdx idx.1 }
        hdid hids hnd (List.ne_nil_of_mem hdmem)
      simp only [removeHolding, hget, hfind]
      rw [refreshCache_save_eq _ _ mm hm]
      rfl

theorem updateHolding_err (s : PortfolioStore) (hwf : WellFormed s) (pid hid : String)
    (u : HoldingUpdate)
    (herr : errOf (updateHolding s pid hid u).2 ≠ none) :
    (updateHolding s pid hid u).1 = ensurePortfoliosInitialized s := by
  obtain ⟨hids, hnd, hval, hkeys⟩ := mutation_preamble s hwf
  cases hget : dictGet (ensurePortfoliosInitialized s).portfoliosCache pid with
  | none =>
    simp only [updateHolding, hget]
  | some portfolio =>
    obtain ⟨hdid, hdmem⟩ := dictGet_map_pair_id _ pid portfolio (hval ▸ hget)
    cases hfind : portfolio.holdings.enum.find? (fun e => decide (e.2.id = some hid)) with
    | none =>
      simp only [updateHolding, hget, hfind]
    | some idx =>
      exfalso
      apply herr
      obtain ⟨mm, hm⟩ := refreshCache_replace_ok (ensurePortfoliosInitialized s) pid
        { portfolio with holdings := portfolio.holdings.set idx.1 (applyHoldingUpdate idx.2 u) }
        hdid hids hnd (List.ne_nil_of_mem hdmem)
      simp only [updateHolding, hget, hfind]
      rw [refreshCache_save_eq _ _ mm hm]
      rfl

/-- C5 (amended).  A mutating operation that fails with a validation error
leaves the persisted file untouched and leaves the portfolio-map view of the
in-memory data unchanged; however, the raw in-memory data is not always
byte-identical: on a store still in the legacy flat layout, the call first
materializes the default portfolio (moving the flat holdings into an
explicit portfolio list) even when its validation then rejects the
operation, as the counterexample shows. -/
theorem mutation_error_preserves_state (s : PortfolioStore) (op : StoreOp)
    (hwf : WellFormed s) (herr : (applyOp s op).2 ≠ none) :
    (applyOp s op).1.file = s.file ∧
    buildPortfolioMap (applyOp s op).1.data = buildPortfolioMap s.data := by
  obtain ⟨hfile, hbuild, -, -⟩ := ensureInit_spec s hwf
  cases op with
  | createPortfolio pid name notes =>
    have h := createPortfolio_err s hwf pid name notes (by simpa [applyOp] using herr)
    simp only [applyOp]
    exact ⟨by rw [h]; exact hfile, by rw [h]; exact hbuild⟩
  | updatePortfolio pid name notes =>
    have h := updatePortfolio_err s hwf pid name notes (by simpa [applyOp] using herr)
    simp only [applyOp]
    exact ⟨by rw [h]; exact hfile, by rw [h]; exact hbuild⟩
  | deletePortfolio pid force =>
    have h := deletePortfolio_err s hwf pid force (by simpa [applyOp] using herr)
    simp only [applyOp]
    exact ⟨by rw [h]; exact hfile, by rw [h]; exact hbuild⟩
  | addHolding pid holding =>
    have h := addHolding_err s hwf pid holding (by simpa [applyOp] using herr)
    simp only [applyOp]
    exact ⟨by rw [h]; exact hfile, by rw [h]; exact hbuild⟩
  | removeHolding pid key =>
    have h := removeHolding_err s hwf pid key (by simpa [applyOp] using herr)
    simp only [applyOp]
    exact ⟨by rw [h]; exact hfile, by rw [h]; exact hbuild⟩
  | updateHolding pid hid upd =>
    have h := updateHolding_err s hwf pid hid upd (by simpa [applyOp] using herr)
    simp only [applyOp]
    exact ⟨by rw [h]; exact hfile, by rw [h]; exact hbuild⟩

/-- C5 (corrected), counterexample to the claim as stated.  On a store in
the legacy flat layout, `create_portfolio("default", ...)` is rejected with
a duplicate-id error, yet the in-memory data is not what it was before the
call: the flat holdings were materialized into an explicit default
portfolio before the validation failed. -/
theorem mutation_error_preserves_state_cex :
    (applyOp legacyStore (.createPortfolio "default" none none)).2.isSome = true ∧
    (applyOp legacyStore (.createPortfolio "default" none none)).1.data
      ≠ legacyStore.data := by
  refine ⟨rfl, ?_⟩
  intro heq
  have h1 : (applyOp legacyStore
      (.createPortfolio "default" none none)).1.data.portfolios.length = 1 := rfl
  rw [heq] at h1
  have h2 : legacyStore.data.portfolios.length = 0 := rfl
  rw [h2] at h1
  exact absurd h1 (by decide)

/-- Witness for the amended validation-error theorem: creating a duplicate
portfolio id is rejected and preserves file and portfolio map. -/
theorem mutation_error_preserves_state_witness :
    WellFormed twoEmptyStore ∧
    (applyOp twoEmptyStore (.createPortfolio "a" none none)).2 ≠ none ∧
    ((applyOp twoEmptyStore (.createPortfolio "a" none none)).1.file = twoEmptyStore.file ∧
      buildPortfolioMap (applyOp twoEmptyStore (.createPortfolio "a" none none)).1.data
        = buildPortfolioMap twoEmptyStore.data) :=
  ⟨Or.inr (by decide), by decide,
    mutation_error_preserves_state twoEmptyStore (.createPortfolio "a" none none)
      (Or.inr (by decide)) (by decide)⟩

/-- After replacing the portfolio with key `pid` (keeping distinct ids),
the rebuilt map finds the replacement under `pid`. -/
theorem dictGet_replace_self (l : List PortfolioDefinition) (pid : String)
    (x : PortfolioDefinition) (hx : x.id = pid)
    (hnd : (l.map (fun d => d.id)).Nodup) (p0 : PortfolioDefinition)
    (hp0 : p0 ∈ l) (hp0id : p0.id = pid) :
    dictGet ((l.map (fun p => if p.id = pid then x else p)).map (fun d => (d.id, d))) pid
      = some x := by
  have hmem : x ∈ l.map (fun p => if p.id = pid then x else p) := by
    have h0 := List.mem_map_of_mem (fun p => if p.id = pid then x else p) hp0
    have h1 : (if p0.id = pid then x else p0)
        ∈ l.map (fun p => if p.id = pid then x else p) := h0
    rwa [if_pos hp0id] at h1
  have hndk : (dictKeys ((l.map (fun p => if p.id = pid then x else p)).map
      (fun d => (d.id, d)))).Nodup := by
    unfold dictKeys
    rw [List.map_map]
    show ((l.map (fun p => if p.id = pid then x else p)).map (fun d => d.id)).Nodup
    rw [conds_replace l pid x hx]
    exact hnd
  have h0 : dictGet ((l.map (fun p => if p.id = pid then x else p)).map
      (fun d => (d.id, d))) x.id = some x := by
    have h1 : ((x.id, x) : String × PortfolioDefinition)
        ∈ (l.map (fun p => if p.id = pid then x else p)).map (fun d => (d.id, d)) :=
      List.mem_map_of_mem _ hmem
    exact dictGet_of_mem_nodup _ (x.id, x) h1 hndk
  rwa [hx] at h0

/-! ### Removal-key matching (`remove_holding`) -/

/-- C7 (amended).  `remove_holding` resolves its key by exact (truthy) id or
case-insensitive symbol.  Zero matches fail; more than one match fails with
the ambiguity error.  When two holdings share the key's symbol, removal by
that symbol fails; removal by a holding's id succeeds provided that id
matches no other holding — in particular, provided it does not
case-insensitively equal the shared symbol — and the removed holding then
no longer appears in the snapshots of the resulting store.  (An id that
itself case-insensitively equals the shared symbol is ambiguous and fails
too, which is what corrects the claim's unconditional "removal by one
holding's unique id succeeds".) -/
theorem remove_holding_semantics :
    (∀ (portfolio : PortfolioDefinition) (key : String),
      portfolio.holdings.countP (matchesKey key) = 0 →
        ∃ e, findHoldingIndex portfolio key = .error e) ∧
    (∀ (portfolio : PortfolioDefinition) (key : String),
      2 ≤ portfolio.holdings.countP (matchesKey key) →
        ∃ e, findHoldingIndex portfolio key = .error e) ∧
    (∀ (s : PortfolioStore) (pid : String) (portfolio : PortfolioDefinition)
       (h1 h2 : Holding) (i2 : String),
      WellFormed s →
      dictGet (ensurePortfoliosInitialized s).portfoliosCache pid = some portfolio →
      portfolio.holdings = [h1, h2] →
      pyUpper h1.symbol = pyUpper h2.symbol →
      h2.id = some i2 → i2 ≠ "" →
      matchesKey i2 h1 = false →
      (∃ e, (applyOp s (.removeHolding pid h2.symbol)).2 = some e) ∧
      (applyOp s (.removeHolding pid i2)).2 = none ∧
      (∀ quotes, ∃ snaps,
        ((applyOp s (.removeHolding pid i2)).1).snapshots quotes (some pid) = .ok snaps ∧
        ∀ snap ∈ snaps, snap.holding ≠ h2)) := by
  refine ⟨?_, ?_, ?_⟩
  · intro portfolio key hcount
    have hnil : findHoldingMatches portfolio key = [] := by
      unfold findHoldingMatches
      rw [List.filter_eq_nil_iff]
      intro x hx
      have hx2 : x.2 ∈ portfolio.holdings := by
        have := List.mem_map_of_mem Prod.snd hx
        rwa [List.enum_map_snd] at this
      exact List.countP_eq_zero.mp hcount x.2 hx2
    refine ⟨"Holding '" ++ key ++ "' not found in portfolio " ++ portfolio.id, ?_⟩
    unfold findHoldingIndex
    rw [hnil]
  · intro portfolio key hcount
    have hlen : 2 ≤ (findHoldingMatches portfolio key).length := by
      unfold findHoldingMatches
      rw [← List.countP_eq_length_filter]
      calc 2 ≤ portfolio.holdings.countP (matchesKey key) := hcount
        _ = _ := by
          conv_lhs => rw [← List.enum_map_snd portfolio.holdings]
          rw [List.countP_map]
          rfl
    rcases hm : findHoldingMatches portfolio key with _ | ⟨a, _ | ⟨b, rest⟩⟩
    · rw [hm] at hlen; simp at hlen
    · rw [hm] at hlen; simp at hlen
    · refine ⟨"Multiple holdings match '" ++ key ++ "' in portfolio " ++ portfolio.id
        ++ "; use holding id instead", ?_⟩
      unfold findHoldingIndex
      rw [hm]
  · intro s pid portfolio h1 h2 i2 hwf hget hh hsym hid2 hi2ne hnomatch
    obtain ⟨hids, hnd, hval, hkeys⟩ := mutation_preamble s hwf
    obtain ⟨hdid, hdmem⟩ := dictGet_map_pair_id _ pid portfolio (hval ▸ hget)
    have hm1 : matchesKey h2.symbol h1 = true := by
      simp [matchesKey, hsym]
    have hm2 : matchesKey h2.symbol h2 = true := by
      simp [matchesKey]
    have hm2' : matchesKey i2 h2 = true := by
      simp [matchesKey, hid2, hi2ne]
    have henum : portfolio.holdings.enum = [(0, h1), (1, h2)] := by
      rw [hh]
      rfl
    have hmatches1 : findHoldingMatches portfolio h2.symbol = [(0, h1), (1, h2)] := by
      unfold findHoldingMatches
      rw [henum]
      simp [List.filter, hm1, hm2]
    have hmatches2 : findHoldingMatches portfolio i2 = [(1, h2)] := by
      unfold findHoldingMatches
      rw [henum]
      simp [List.filter, hnomatch, hm2']
    have hfind2 : findHoldingIndex portfolio i2 = .ok (1, h2) := by
      unfold findHoldingIndex
      rw [hmatches2]
    have hne12 : h1 ≠ h2 := by
      intro heq
      have h' : matchesKey i2 h1 = true := by rw [heq]; exact hm2'
      rw [hnomatch] at h'
      exact Bool.false_ne_true h'
    have hdid' : (PortfolioDefinition.mk portfolio.id portfolio.name portfolio.notes
        (portfolio.holdings.eraseIdx 1)).id = pid := hdid
    have hm := buildPortfolioMap_replace_ok (ensurePortfoliosInitialized s) pid
      { portfolio with holdings := portfolio.holdings.eraseIdx 1 }
      hdid' hids hnd (List.ne_nil_of_mem hdmem)
    have happ : applyOp s (.removeHolding pid i2)
        = ({ data := replacePortfolio (ensurePortfoliosInitialized s).data pid
               { portfolio with holdings := portfolio.holdings.eraseIdx 1 },
             portfoliosCache := (replacePortfolio (ensurePortfoliosInitialized s).data pid
               { portfolio with
                 holdings := portfolio.holdings.eraseIdx 1 }).portfolios.map
                 (fun d => (d.id, d)),
             file := some (replacePortfolio (ensurePortfoliosInitialized s).data pid
               { portfolio with holdings := portfolio.holdings.eraseIdx 1 }) }, none) := by
      simp only [applyOp, removeHolding, hget, hfind2]
      rw [refreshCache_save_eq _ _ _ hm]
      rfl
    refine ⟨?_, ?_, ?_⟩
    · refine ⟨"Multiple holdings match '" ++ h2.symbol ++ "' in portfolio "
        ++ portfolio.id ++ "; use holding id instead", ?_⟩
      have hfind1 : findHoldingIndex portfolio h2.symbol
          = .error ("Multiple holdings match '" ++ h2.symbol ++ "' in portfolio "
              ++ portfolio.id ++ "; use holding id instead") := by
        unfold findHoldingIndex
        rw [hmatches1]
      simp only [applyOp, removeHolding, hget, hfind1, errOf]
    · rw [happ]
    · intro quotes
      have hgetR := dictGet_replace_self (ensurePortfoliosInitialized s).data.portfolios pid
        { portfolio with holdings := portfolio.holdings.eraseIdx 1 }
        hdid' hnd portfolio hdmem hdid
      refine ⟨({ portfolio with
          holdings := portfolio.holdings.eraseIdx 1 } : PortfolioDefinition).holdings.map
            (fun h => mkSnapshot quotes
              { portfolio with holdings := portfolio.holdings.eraseIdx 1 } h), ?_, ?_⟩
      · rw [happ]
        simp only [PortfolioStore.snapshots, iterHoldings, replacePortfolio]
        rw [hgetR]
        simp only [Except.map, List.map_map]
        rfl
      · intro snap hsnap
        obtain ⟨h', hmem', rfl⟩ := List.mem_map.mp hsnap
        have hh' : ({ portfolio with holdings := portfolio.holdings.eraseIdx 1 }
            : PortfolioDefinition).holdings = [h1] := by
          show portfolio.holdings.eraseIdx 1 = [h1]
          rw [hh]
          rfl
        rw [hh'] at hmem'
        rw [List.mem_singleton.mp hmem']
        show ((mkSnapshot quotes _ h1).holding) ≠ h2
        rw [(mkSnapshot_spec quotes _ h1).1]
        exact hne12

/-- C7 (corrected), counterexample to the claim as stated.  With holdings
`{id "aapl", symbol "AAPL"}` and `{id "aapl-1", symbol "AAPL"}` (the very
ids `add_holding` auto-derives), removing by the first holding's unique id
`"aapl"` fails with the ambiguity error: the key also case-insensitively
matches both holdings' symbol. -/
theorem remove_holding_semantics_cex :
    c7xH1.id = some "aapl" ∧ c7xH2.id = some "aapl-1" ∧
    (applyOp c7xStore (.removeHolding "p" "aapl")).2
      = some "Multiple holdings match 'aapl' in portfolio p; use holding id instead" := by
  refine ⟨rfl, rfl, ?_⟩
  rfl

/-- Witness for the removal-semantics theorem at the concrete store. -/
theorem remove_holding_semantics_witness :
    WellFormed c7Store ∧
    dictGet (ensurePortfoliosInitialized c7Store).portfoliosCache "p" = some c7Def ∧
    c7Def.holdings = [c7H1, c7H2] ∧
    pyUpper c7H1.symbol = pyUpper c7H2.symbol ∧
    c7H2.id = some "x2" ∧ "x2" ≠ "" ∧ matchesKey "x2" c7H1 = false ∧
    ((∃ e, (applyOp c7Store (.removeHolding "p" c7H2.symbol)).2 = some e) ∧
     (applyOp c7Store (.removeHolding "p" "x2")).2 = none ∧
     (∀ quotes, ∃ snaps,
       ((applyOp c7Store (.removeHolding "p" "x2")).1).snapshots quotes (some "p")
         = .ok snaps ∧
       ∀ snap ∈ snaps, snap.holding ≠ c7H2)) :=
  ⟨Or.inr (by decide), by decide, rfl, rfl, rfl, by decide, by decide,
    remove_holding_semantics.2.2 c7Store "p" c7Def c7H1 c7H2 "x2" (Or.inr (by decide))
      (by decide) rfl rfl rfl (by decide) (by decide)⟩

end Facai
